import Mathlib

/-!
Verification development for the telegram-notion-bot repository
(`app.py`, `switch_app.py`).  The Python source is shallowly embedded:
pure helpers become Lean functions; the process-wide dictionaries
`pending_confirm` and `undo_stack` become explicit association lists in a
`BotState` record; HTTP calls (Telegram sends, Notion POST/PATCH) become an
emitted effect list plus outcome oracles in an `Env` record; wall-clock
timestamps and calendar dates become natural numbers.  Background threads
(`sweep_pending_expirations`, the spawned selection handlers) are modelled
as atomic steps of a transition system, which matches the sequential
interleaving semantics the code relies on.
-/

namespace TNBot

/-! ### Python string primitives -/

/-- Whitespace characters stripped by Python `str.strip()` / split by `str.split()`. -/
def pyWhitespace (c : Char) : Bool :=
  c = ' ' || c = '\t' || c = '\n' || c = '\r' || c = '\x0b' || c = '\x0c'

/-- `str.strip()` on a character list. -/
def pyStripList (cs : List Char) : List Char :=
  ((cs.dropWhile pyWhitespace).reverse.dropWhile pyWhitespace).reverse

/-- Python `str.strip()`. -/
def pyStrip (s : String) : String := (pyStripList s.toList).asString

/-- Python `str.lower()` per character.  ASCII letters are lowered via
`Char.toLower`; the uppercase Vietnamese letters that occur in the
repository's string literals are tabulated explicitly (Python's `lower` is
full Unicode; only the characters the program manipulates are modelled). -/
def pyLowerChar (c : Char) : Char :=
  if c = 'Đ' then 'đ'
  else if c = 'Ư' then 'ư'
  else if c = 'Ơ' then 'ơ'
  else if c = 'Ó' then 'ó'
  else if c = 'Á' then 'á'
  else if c = 'À' then 'à'
  else if c = 'Ã' then 'ã'
  else if c = 'Ầ' then 'ầ'
  else if c = 'Ổ' then 'ổ'
  else if c = 'Ụ' then 'ụ'
  else if c = 'Ộ' then 'ộ'
  else if c = 'Ị' then 'ị'
  else if c = 'Ề' then 'ề'
  else if c = 'Ủ' then 'ủ'
  else c.toLower

/-- Python `str.lower()`. -/
def pyLower (s : String) : String := (s.toList.map pyLowerChar).asString

/-- Python `s.startswith(prefix)` (list-based; `String.startsWith` does
not reduce in the kernel). -/
def pyStartsWith (s pre : String) : Bool :=
  pre.toList.isPrefixOf s.toList

/-- Occurrence of `n` as a contiguous sublist of the second argument
(Python's `in` operator on strings). -/
def occursInList (n : List Char) : List Char → Bool
  | [] => n.isEmpty
  | c :: t => n.isPrefixOf (c :: t) || occursInList n t

/-- Python `needle in haystack` for strings. -/
def pyIn (needle haystack : String) : Bool :=
  occursInList needle.toList haystack.toList

/-- Helper for `str.split(sep)` with a one-character separator. -/
def splitOnCharAux (sep : Char) : List Char → List Char → List (List Char)
  | [], acc => [acc.reverse]
  | c :: t, acc =>
      if c = sep then acc.reverse :: splitOnCharAux sep t []
      else splitOnCharAux sep t (c :: acc)

/-- Python `s.split(sep)` for a one-character separator (keeps empty pieces). -/
def pySplitChar (sep : Char) (s : String) : List String :=
  (splitOnCharAux sep s.toList []).map List.asString

/-- Helper for `str.split(sep, 1)`: split at the first occurrence of `sep`. -/
def splitFirstAux (sep : Char) : List Char → Option (List Char × List Char)
  | [] => none
  | c :: t =>
      if c = sep then some ([], t)
      else (splitFirstAux sep t).map (fun ab => (c :: ab.1, ab.2))

/-- Python `s.split(sep, 1)` (``none`` when the separator does not occur). -/
def pySplitFirst (sep : Char) (s : String) : Option (String × String) :=
  (splitFirstAux sep s.toList).map (fun ab => (ab.1.asString, ab.2.asString))

/-- Helper for whitespace `str.split()` (runs of whitespace, no empty pieces). -/
def pySplitWsAux : List Char → List Char → List (List Char)
  | [], acc => if acc.isEmpty then [] else [acc.reverse]
  | c :: t, acc =>
      if pyWhitespace c then
        if acc.isEmpty then pySplitWsAux t [] else acc.reverse :: pySplitWsAux t []
      else pySplitWsAux t (c :: acc)

/-- Python `s.split()` (no argument: split on whitespace runs). -/
def pySplitWs (s : String) : List String :=
  (pySplitWsAux s.toList []).map List.asString

/-- ASCII decimal digit test (`[0-9]` in the regexes below). -/
def isDigitChar (c : Char) : Bool := '0' ≤ c && c ≤ '9'

/-- Numeric value of an ASCII digit character. -/
def digitVal (c : Char) : Nat := c.toNat - '0'.toNat

/-- Big-endian value of a digit list (the value `int` gives a digit string). -/
def digitsVal (cs : List Char) : Nat :=
  cs.foldl (fun a c => 10 * a + digitVal c) 0

/-- Little-endian digit value, used to reason about `digitsVal`. -/
def valLE : List Char → Nat
  | [] => 0
  | c :: t => digitVal c + 10 * valLE t

/-- The ASCII character of a decimal digit. -/
def digitChar : Nat → Char
  | 0 => '0' | 1 => '1' | 2 => '2' | 3 => '3' | 4 => '4'
  | 5 => '5' | 6 => '6' | 7 => '7' | 8 => '8' | 9 => '9'
  | _ => '?'

/-- Little-endian decimal digits of a natural number (fuel-driven so that the
kernel can evaluate it; `natDigitsRev` supplies sufficient fuel). -/
def natDigitsRevFuel : Nat → Nat → List Char
  | 0, _ => []
  | fuel + 1, n =>
      if n < 10 then [digitChar n]
      else digitChar (n % 10) :: natDigitsRevFuel fuel (n / 10)

/-- Little-endian decimal digits of a natural number. -/
def natDigitsRev (n : Nat) : List Char := natDigitsRevFuel (n + 1) n

/-- Decimal rendering of a natural number (Python `str` of a nonnegative int). -/
def natDecimal (n : Nat) : String := (natDigitsRev n).reverse.asString

/-- Decimal rendering of an integer (Python `str(int)`). -/
def intDecimal (i : Int) : String :=
  if i < 0 then "-" ++ natDecimal i.natAbs else natDecimal i.natAbs

/-- Python `int(s)` on a string: optional surrounding whitespace, optional
sign, then decimal digits; anything else raises (`none`).  (Numeric-literal
underscores and non-ASCII digits, which CPython also accepts, are not
modelled; they do not occur in this bot's inputs.) -/
def pyInt (s : String) : Option Int :=
  match pyStripList s.toList with
  | '-' :: rest =>
      if rest ≠ [] ∧ rest.all isDigitChar then some (-(digitsVal rest : Int)) else none
  | '+' :: rest =>
      if rest ≠ [] ∧ rest.all isDigitChar then some (digitsVal rest : Int) else none
  | cs =>
      if cs ≠ [] ∧ cs.all isDigitChar then some (digitsVal cs : Int) else none

/-- Python `str.isdigit()` (restricted to ASCII digits, as above). -/
def pyIsDigit (s : String) : Bool :=
  !s.toList.isEmpty && s.toList.all isDigitChar

/-! ### `normalize_gcode` (app.py lines 260-270) -/

/-- CPython `re` semantics of `$` (no `re.MULTILINE`): the anchor also
matches just before one newline at the very end of the string, so matching
`...$` against `cs` means matching `...` against `cs` with one trailing
newline removed. -/
def dropTrailingNewline (cs : List Char) : List Char :=
  if cs.getLast? = some '\n' then cs.reverse.tail.reverse else cs

/-- The digit group matched by `re.match(r'^(g)0*([0-9]+)$', token)`:
a literal `g`, then at least one ASCII digit, with `$` as in
`dropTrailingNewline`.  Returns the full digit run; `0*([0-9]+)` splits it
so that `int(m.group(2))` is the numeric value of the whole run. -/
def gcodeDigits (token : String) : Option (List Char) :=
  match token.toList with
  | [] => none
  | c :: rest =>
      if c = 'g' then
        if dropTrailingNewline rest ≠ [] ∧ (dropTrailingNewline rest).all isDigitChar then
          some (dropTrailingNewline rest)
        else none
      else none

/-- `normalize_gcode` from app.py: `'g024' -> 'g24'`; any token not matching
`^(g)0*([0-9]+)$` (and the empty string, via `if not token`) is returned
unchanged. -/
def normalize_gcode (token : String) : String :=
  if token.isEmpty then token
  else
    match gcodeDigits token with
    | some ds => "g" ++ natDecimal (digitsVal ds)
    | none => token

/-! Basic facts about the decimal printer, needed for gcode idempotence. -/

theorem valLE_natDigitsRevFuel (fuel n : Nat) (h : n < fuel) :
    valLE (natDigitsRevFuel fuel n) = n := by
  induction fuel generalizing n with
  | zero => omega
  | succ f ih =>
      unfold natDigitsRevFuel
      by_cases h10 : n < 10
      · simp only [h10, if_true]
        unfold valLE valLE
        interval_cases n <;> simp [digitVal, digitChar]
      · simp only [h10, if_false]
        unfold valLE
        rw [ih (n / 10) (by omega)]
        have h2 : digitVal (digitChar (n % 10)) = n % 10 := by
          have : n % 10 < 10 := Nat.mod_lt _ (by omega)
          interval_cases h : (n % 10) <;> simp [digitVal, digitChar]
        omega

theorem allDigits_natDigitsRevFuel (fuel n : Nat) (h : n < fuel) :
    (natDigitsRevFuel fuel n).all isDigitChar = true := by
  induction fuel generalizing n with
  | zero => omega
  | succ f ih =>
      unfold natDigitsRevFuel
      by_cases h10 : n < 10
      · simp only [h10, if_true, List.all_cons, List.all_nil, Bool.and_true]
        interval_cases n <;> decide
      · simp only [h10, if_false, List.all_cons]
        rw [ih (n / 10) (by omega)]
        have : n % 10 < 10 := Nat.mod_lt _ (by omega)
        have : isDigitChar (digitChar (n % 10)) = true := by
          interval_cases h : (n % 10) <;> decide
        simp [this]

theorem digitsVal_reverse (l : List Char) : digitsVal l.reverse = valLE l := by
  induction l with
  | nil => rfl
  | cons c t ih =>
      have h : digitsVal (t.reverse ++ [c]) = 10 * digitsVal t.reverse + digitVal c := by
        unfold digitsVal
        rw [List.foldl_append]
        simp
      unfold valLE
      simp only [List.reverse_cons]
      rw [h, ih]
      ring

theorem digitsVal_natDecimal (n : Nat) :
    digitsVal (natDecimal n).toList = n := by
  unfold natDecimal natDigitsRev
  rw [List.toList_asString, digitsVal_reverse]
  exact valLE_natDigitsRevFuel (n + 1) n (Nat.lt_succ_self n)

theorem natDecimal_all_digits (n : Nat) :
    (natDecimal n).toList.all isDigitChar = true := by
  unfold natDecimal natDigitsRev
  rw [List.toList_asString, List.all_reverse]
  exact allDigits_natDigitsRevFuel (n + 1) n (Nat.lt_succ_self n)

theorem natDecimal_ne_nil (n : Nat) : (natDecimal n).toList ≠ [] := by
  unfold natDecimal natDigitsRev
  rw [List.toList_asString]
  intro h
  have h' : (natDigitsRevFuel (n + 1) n).length = 0 := by rw [← List.length_reverse, h]; rfl
  unfold natDigitsRevFuel at h'
  by_cases h10 : n < 10 <;> simp [h10] at h'

theorem toList_append (a b : String) : (a ++ b).toList = a.toList ++ b.toList := by
  cases a; cases b; rfl

theorem getLast?_digit_ne_newline (l : List Char) (h : l.all isDigitChar = true) :
    l.getLast? ≠ some '\n' := by
  intro hc
  rcases List.mem_getLast?_eq_getLast (Option.mem_def.mpr hc) with ⟨hne, heq⟩
  have hmem : '\n' ∈ l := by rw [heq]; exact List.getLast_mem hne
  have := List.all_eq_true.mp h _ hmem
  simp [isDigitChar] at this

theorem dropTrailingNewline_digits (l : List Char) (h : l.all isDigitChar = true) :
    dropTrailingNewline l = l := by
  unfold dropTrailingNewline
  rw [if_neg (getLast?_digit_ne_newline l h)]

theorem dropTrailingNewline_concat (l : List Char) :
    dropTrailingNewline (l ++ ['\n']) = l := by
  unfold dropTrailingNewline
  rw [if_pos (by simp), List.reverse_append]
  simp

theorem gcodeDigits_of_digits (ds : List Char) (h1 : ds ≠ [])
    (h2 : ds.all isDigitChar = true) :
    gcodeDigits ("g" ++ ds.asString) = some ds ∧
    gcodeDigits ("g" ++ ds.asString ++ "\n") = some ds := by
  have hl1 : ("g" ++ ds.asString).toList = 'g' :: ds := by
    rw [toList_append, List.toList_asString]; rfl
  have hl2 : ("g" ++ ds.asString ++ "\n").toList = 'g' :: (ds ++ ['\n']) := by
    rw [toList_append, toList_append, List.toList_asString]; rfl
  constructor
  · unfold gcodeDigits
    rw [hl1]
    simp [dropTrailingNewline_digits ds h2, h1, h2]
  · unfold gcodeDigits
    rw [hl2]
    simp [dropTrailingNewline_concat ds, h1, h2]

theorem gcodeDigits_some (t : String) (ds : List Char)
    (h : gcodeDigits t = some ds) : ds ≠ [] ∧ ds.all isDigitChar = true := by
  unfold gcodeDigits at h
  split at h
  · exact absurd h (by simp)
  · split at h
    · split at h
      · cases h; assumption
      · exact absurd h (by simp)
    · exact absurd h (by simp)

theorem string_ne_empty_of_toList (t : String) (h : t.toList ≠ []) :
    t.isEmpty = false := by
  by_cases hb : t.isEmpty = true
  · exact absurd (by rw [(String.isEmpty_iff t).mp hb]; rfl) h
  · exact Bool.eq_false_iff.mpr hb

theorem normalize_gcode_of_digits (ds : List Char) (h1 : ds ≠ [])
    (h2 : ds.all isDigitChar = true) :
    normalize_gcode ("g" ++ ds.asString) = "g" ++ natDecimal (digitsVal ds) ∧
    normalize_gcode ("g" ++ ds.asString ++ "\n") = "g" ++ natDecimal (digitsVal ds) := by
  rcases gcodeDigits_of_digits ds h1 h2 with ⟨hg1, hg2⟩
  have hne1 : ("g" ++ ds.asString).isEmpty = false := by
    apply string_ne_empty_of_toList
    rw [toList_append, List.toList_asString]
    simp
  have hne2 : ("g" ++ ds.asString ++ "\n").isEmpty = false := by
    apply string_ne_empty_of_toList
    rw [toList_append]
    simp
  constructor
  · unfold normalize_gcode
    rw [hne1, hg1]
    simp
  · unfold normalize_gcode
    rw [hne2, hg2]
    simp

theorem normalize_gcode_of_none (t : String) (h : gcodeDigits t = none) :
    normalize_gcode t = t := by
  unfold normalize_gcode
  by_cases he : t.isEmpty
  · rw [he]; simp
  · rw [Bool.eq_false_iff.mpr he, h]; simp

theorem normalize_gcode_idem (t : String) :
    normalize_gcode (normalize_gcode t) = normalize_gcode t := by
  by_cases he : t.isEmpty
  · have h0 : normalize_gcode t = t := by unfold normalize_gcode; rw [he]; simp
    rw [h0, h0]
  · rcases hg : gcodeDigits t with _ | ds
    · rw [normalize_gcode_of_none t hg, normalize_gcode_of_none t hg]
    · have hstep : normalize_gcode t = "g" ++ natDecimal (digitsVal ds) := by
        unfold normalize_gcode
        rw [Bool.eq_false_iff.mpr he, hg]
        simp
      rcases gcodeDigits_some t ds hg with ⟨_, _⟩
      have hds' : (natDecimal (digitsVal ds)).toList ≠ [] := natDecimal_ne_nil _
      have hdig' : (natDecimal (digitsVal ds)).toList.all isDigitChar = true :=
        natDecimal_all_digits _
      have := (normalize_gcode_of_digits (natDecimal (digitsVal ds)).toList hds' hdig').1
      rw [String.asString_toList, digitsVal_natDecimal] at this
      rw [hstep, this]

/-- Claim-side predicate, following C10's words only: a token "consisting of
`g` followed by digits".  It is compared against the behaviour of
`normalize_gcode`, whose regex additionally lets `$` match before one
trailing newline. -/
def gDigitsToken (t : String) : Bool :=
  match t.toList with
  | [] => false
  | c :: rest => c = 'g' && !rest.isEmpty && rest.all isDigitChar

/-- C10, counterexample.  `"g01\n"` is not "`g` followed by digits" (it ends
in a newline), yet `normalize_gcode` does not return it unchanged: Python's
`$` matches before the trailing newline, so the token is rewritten to
`"g1"`. -/
theorem c10_normalize_gcode_counterexample :
    gDigitsToken "g01\n" = false ∧ normalize_gcode "g01\n" ≠ "g01\n" := by
  decide

/-- C10 (amended): `normalize_gcode` maps every token of the form `g`
followed by at least one digit — optionally followed by one trailing
newline, which the regex's `$` also accepts — to `g` followed by the
decimal value of those digits with leading zeros removed; it returns every
token not of that form (including the empty string, and tokens whose
rejection is witnessed by `gcodeDigits t = none`) unchanged; and it is
idempotent. -/
theorem c10_normalize_gcode_amended :
    (∀ ds : List Char, ds ≠ [] → ds.all isDigitChar = true →
      normalize_gcode ("g" ++ ds.asString) = "g" ++ natDecimal (digitsVal ds) ∧
      normalize_gcode ("g" ++ ds.asString ++ "\n") = "g" ++ natDecimal (digitsVal ds)) ∧
    (∀ t : String, gcodeDigits t = none → normalize_gcode t = t) ∧
    (∀ t : String, normalize_gcode (normalize_gcode t) = normalize_gcode t) :=
  ⟨normalize_gcode_of_digits, normalize_gcode_of_none, normalize_gcode_idem⟩

/-- Witness for C10's amended theorem at concrete inputs. -/
theorem c10_normalize_gcode_witness :
    normalize_gcode ("g" ++ (['0', '2', '4'] : List Char).asString) = "g" ++ natDecimal 24 ∧
    normalize_gcode "tam14" = "tam14" := by
  constructor
  · exact (c10_normalize_gcode_amended.1 ['0', '2', '4'] (by decide) (by decide)).1
  · exact c10_normalize_gcode_amended.2.1 "tam14" (by decide)

/-! ### `parse_user_selection_text` (app.py lines 1104-1131) -/

/-- The inclusive integer range `range(lo, hi + 1)` contributed by an
`a-b` selection part (with `lo = min(a_i, b_i)`, `hi = max(a_i, b_i)`). -/
def intRangeIncl (lo hi : Int) : List Int :=
  (List.range (hi - lo + 1).toNat).map (fun i : Nat => lo + (i : Int))

/-- One (already-stripped) comma-separated part of a selection string, as
processed by the loop body of `parse_user_selection_text`: an `a-b` part
contributes the inclusive range between the two parsed bounds (nothing if
either fails to parse); a plain number `n` with `n > 1 and found_len >= n`
expands to `range(1, n + 1)`, any other parsed number contributes itself,
and an unparsable part contributes nothing. -/
def selectionPart (p : String) (foundLen : Nat) : List Int :=
  if pyIn "-" p then
    match pySplitFirst '-' p with
    | some ab =>
        match pyInt ab.1, pyInt ab.2 with
        | some ai, some bi => intRangeIncl (min ai bi) (max ai bi)
        | _, _ => []
    | none => []
  else
    match pyInt p with
    | some n =>
        if n > 1 ∧ (foundLen : Int) ≥ n then
          (List.range n.toNat).map (fun i : Nat => (i : Int) + 1)
        else [n]
    | none => []

/-- Insert a value into a strictly ascending list, dropping duplicates. -/
def insUnique (x : Int) : List Int → List Int
  | [] => [x]
  | y :: t => if x < y then x :: y :: t else if x = y then y :: t else y :: insUnique x t

/-- `sorted(list(dict.fromkeys(l)))`: the ascending duplicate-free list with
the same elements (a strictly ascending list is determined by its element
set, so inserting one by one reproduces Python's dedup-then-sort). -/
def sortUnique : List Int → List Int
  | [] => []
  | x :: t => insUnique x (sortUnique t)

/-- `parse_user_selection_text` from app.py: parses `'1'`, `'1,2'`, `'1-3'`,
`'all'`, or `'3'` (meaning `1..3`) against `found_len` candidates. -/
def parse_user_selection_text (selText : String) (foundLen : Nat) : List Int :=
  if pyLower (pyStrip selText) = "all" ∨ pyLower (pyStrip selText) = "tất cả" ∨
      pyLower (pyStrip selText) = "tat ca" then
    (List.range foundLen).map (fun i : Nat => (i : Int) + 1)
  else
    sortUnique ((pySplitChar ',' (pyLower (pyStrip selText))).foldl
      (fun acc p => acc ++ selectionPart (pyStrip p) foundLen) [])

theorem mem_insUnique {z x : Int} {l : List Int} (h : z ∈ insUnique x l) :
    z = x ∨ z ∈ l := by
  induction l with
  | nil => simpa [insUnique] using h
  | cons y t ih =>
      unfold insUnique at h
      by_cases h1 : x < y
      · rw [if_pos h1] at h
        rcases List.mem_cons.mp h with h | h
        · exact Or.inl h
        · exact Or.inr h
      · rw [if_neg h1] at h
        by_cases h2 : x = y
        · rw [if_pos h2] at h
          exact Or.inr h
        · rw [if_neg h2] at h
          rcases List.mem_cons.mp h with h | h
          · subst h; exact Or.inr (List.mem_cons_self _ _)
          · rcases ih h with h' | h'
            · exact Or.inl h'
            · exact Or.inr (List.mem_cons_of_mem _ h')

theorem sorted_insUnique (x : Int) (l : List Int)
    (h : List.Sorted (· < ·) l) : List.Sorted (· < ·) (insUnique x l) := by
  induction l with
  | nil => simp [insUnique]
  | cons y t ih =>
      rcases List.sorted_cons.mp h with ⟨hy, ht⟩
      unfold insUnique
      by_cases h1 : x < y
      · rw [if_pos h1]
        refine List.sorted_cons.mpr ⟨?_, h⟩
        intro z hz
        rcases List.mem_cons.mp hz with rfl | hz
        · exact h1
        · exact h1.trans (hy z hz)
      · rw [if_neg h1]
        by_cases h2 : x = y
        · rw [if_pos h2]; exact h
        · rw [if_neg h2]
          have hyx : y < x := by omega
          refine List.sorted_cons.mpr ⟨?_, ih ht⟩
          intro z hz
          rcases mem_insUnique hz with rfl | hz
          · exact hyx
          · exact hy z hz

theorem sorted_sortUnique (l : List Int) : List.Sorted (· < ·) (sortUnique l) := by
  induction l with
  | nil => simp [sortUnique]
  | cons x t ih => exact sorted_insUnique x (sortUnique t) ih

theorem chain_lt_range_map (n : Nat) :
    List.Chain' (· < ·) ((List.range n).map (fun i : Nat => (i : Int) + 1)) := by
  apply List.Pairwise.chain'
  rw [List.pairwise_map]
  exact (List.pairwise_lt_range n).imp (fun hab => by omega)

theorem occursInList_singleton (c : Char) (l : List Char) :
    occursInList [c] l = l.any (fun x => c == x) := by
  induction l with
  | nil => rfl
  | cons c' t ih =>
      unfold occursInList
      rw [ih]
      show (List.isPrefixOf [c] (c' :: t) || _) = _
      simp [List.isPrefixOf]

theorem not_mem_of_pyIn_dash_false (s : String) (h : pyIn "-" s = false) :
    '-' ∉ s.toList := by
  intro hm
  have h1 : pyIn "-" s = s.toList.any (fun x => '-' == x) :=
    occursInList_singleton '-' s.toList
  have h2 : s.toList.any (fun x => '-' == x) = true :=
    List.any_eq_true.mpr ⟨'-', hm, by simp⟩
  rw [h1, h2] at h
  exact absurd h (by simp)

theorem splitFirstAux_append (sep : Char) (l1 l2 : List Char) (h : sep ∉ l1) :
    splitFirstAux sep (l1 ++ sep :: l2) = some (l1, l2) := by
  induction l1 with
  | nil => simp [splitFirstAux]
  | cons c t ih =>
      have hc : ¬(c = sep) := fun e => h (e ▸ List.mem_cons_self c t)
      have ht : sep ∉ t := fun e => h (List.mem_cons_of_mem c e)
      show splitFirstAux sep (c :: (t ++ sep :: l2)) = some (c :: t, l2)
      unfold splitFirstAux
      rw [if_neg hc, ih ht]
      rfl

theorem pyIn_dash_append (sa sb : String) : pyIn "-" (sa ++ "-" ++ sb) = true := by
  show occursInList ['-'] (sa ++ "-" ++ sb).toList = true
  rw [occursInList_singleton, toList_append, toList_append]
  apply List.any_eq_true.mpr
  exact ⟨'-', by simp [show ("-" : String).toList = ['-'] from rfl], by simp⟩

theorem pySplitFirst_append (sa sb : String) (h : pyIn "-" sa = false) :
    pySplitFirst '-' (sa ++ "-" ++ sb) = some (sa, sb) := by
  have hmem : '-' ∉ sa.toList := not_mem_of_pyIn_dash_false sa h
  unfold pySplitFirst
  rw [toList_append, toList_append]
  have : sa.toList ++ ("-" : String).toList ++ sb.toList =
      sa.toList ++ '-' :: sb.toList := by simp [show ("-" : String).toList = ['-'] from rfl]
  rw [this, splitFirstAux_append '-' sa.toList sb.toList hmem]
  simp
  exact ⟨String.asString_toList sa, String.asString_toList sb⟩

/-- C9: for every selection string and candidate count, the parser returns
a strictly increasing (hence duplicate-free) integer list; `"all"`,
`"tất cả"` and `"tat ca"` yield `1..n`; an `a-b` part contributes the whole
inclusive range between `min` and `max` of the parsed bounds; a single
parsed number `k` with `k > 1` and `n ≥ k` expands to `1..k` while any
other parsed number contributes just itself; an unparsable part contributes
nothing. -/
theorem c9_parse_user_selection :
    (∀ s n, List.Chain' (· < ·) (parse_user_selection_text s n)) ∧
    (∀ n, parse_user_selection_text "all" n =
            (List.range n).map (fun i : Nat => (i : Int) + 1) ∧
          parse_user_selection_text "tất cả" n =
            (List.range n).map (fun i : Nat => (i : Int) + 1) ∧
          parse_user_selection_text "tat ca" n =
            (List.range n).map (fun i : Nat => (i : Int) + 1)) ∧
    (∀ (sa sb : String) (n : Nat) (a b : Int),
        pyInt sa = some a → pyInt sb = some b → pyIn "-" sa = false →
        selectionPart (sa ++ "-" ++ sb) n = intRangeIncl (min a b) (max a b)) ∧
    (∀ (p : String) (n : Nat) (k : Int), pyIn "-" p = false → pyInt p = some k →
        selectionPart p n =
          if k > 1 ∧ (n : Int) ≥ k then
            (List.range k.toNat).map (fun i : Nat => (i : Int) + 1)
          else [k]) ∧
    (∀ (p : String) (n : Nat), pyIn "-" p = false → pyInt p = none →
        selectionPart p n = []) := by
  refine ⟨?_, ?_, ?_, ?_, ?_⟩
  · intro s n
    unfold parse_user_selection_text
    split
    · exact chain_lt_range_map n
    · exact (sorted_sortUnique _).chain'
  · intro n
    exact ⟨rfl, rfl, rfl⟩
  · intro sa sb n a b ha hb hnd
    unfold selectionPart
    rw [pyIn_dash_append sa sb, if_pos rfl, pySplitFirst_append sa sb hnd]
    simp only []
    rw [ha, hb]
  · intro p n k hnd hk
    unfold selectionPart
    rw [hnd]
    simp only [Bool.false_eq_true, if_false]
    rw [hk]
  · intro p n hnd hk
    unfold selectionPart
    rw [hnd]
    simp only [Bool.false_eq_true, if_false]
    rw [hk]

/-- Witness for C9 at concrete inputs. -/
theorem c9_parse_user_selection_witness :
    parse_user_selection_text "all" 3 = [1, 2, 3] ∧
    selectionPart ("1" ++ "-" ++ "3") 5 = intRangeIncl 1 3 ∧
    selectionPart "3" 5 = [1, 2, 3] ∧
    selectionPart "xyz" 5 = [] := by
  refine ⟨?_, ?_, ?_, ?_⟩
  · have h := (c9_parse_user_selection.2.1 3).1
    simpa using h
  · have h := c9_parse_user_selection.2.2.1 "1" "3" 5 1 3 (by decide) (by decide) (by decide)
    simpa using h
  · have h := c9_parse_user_selection.2.2.2.1 "3" 5 3 (by decide) (by decide)
    simpa using h
  · exact c9_parse_user_selection.2.2.2.2 "xyz" 5 (by decide) (by decide)

/-! ### Unicode normalization (`normalize_text`, app.py lines 245-258) -/

/-- The combining marks (Unicode category Mn) produced by decomposing the
Vietnamese letters this repository manipulates: grave, acute, circumflex,
tilde, breve, hook above, horn, dot below. -/
def combiningMark (c : Char) : Bool :=
  c = '̀' || c = '́' || c = '̂' || c = '̃' ||
  c = '̆' || c = '̉' || c = '̛' || c = '̣'

/-- Canonical (NFD) decompositions of the precomposed lowercase Vietnamese
letters.  (`đ` has no canonical decomposition and is kept as itself.) -/
def viNfdTable : List (Char × List Char) := [
  ('á', ['a', '́']), ('à', ['a', '̀']), ('ả', ['a', '̉']),
  ('ã', ['a', '̃']), ('ạ', ['a', '̣']),
  ('ă', ['a', '̆']), ('ắ', ['a', '̆', '́']),
  ('ằ', ['a', '̆', '̀']), ('ẳ', ['a', '̆', '̉']),
  ('ẵ', ['a', '̆', '̃']), ('ặ', ['a', '̣', '̆']),
  ('â', ['a', '̂']), ('ấ', ['a', '̂', '́']),
  ('ầ', ['a', '̂', '̀']), ('ẩ', ['a', '̂', '̉']),
  ('ẫ', ['a', '̂', '̃']), ('ậ', ['a', '̣', '̂']),
  ('é', ['e', '́']), ('è', ['e', '̀']), ('ẻ', ['e', '̉']),
  ('ẽ', ['e', '̃']), ('ẹ', ['e', '̣']),
  ('ê', ['e', '̂']), ('ế', ['e', '̂', '́']),
  ('ề', ['e', '̂', '̀']), ('ể', ['e', '̂', '̉']),
  ('ễ', ['e', '̂', '̃']), ('ệ', ['e', '̣', '̂']),
  ('í', ['i', '́']), ('ì', ['i', '̀']), ('ỉ', ['i', '̉']),
  ('ĩ', ['i', '̃']), ('ị', ['i', '̣']),
  ('ó', ['o', '́']), ('ò', ['o', '̀']), ('ỏ', ['o', '̉']),
  ('õ', ['o', '̃']), ('ọ', ['o', '̣']),
  ('ô', ['o', '̂']), ('ố', ['o', '̂', '́']),
  ('ồ', ['o', '̂', '̀']), ('ổ', ['o', '̂', '̉']),
  ('ỗ', ['o', '̂', '̃']), ('ộ', ['o', '̣', '̂']),
  ('ơ', ['o', '̛']), ('ớ', ['o', '̛', '́']),
  ('ờ', ['o', '̛', '̀']), ('ở', ['o', '̛', '̉']),
  ('ỡ', ['o', '̛', '̃']), ('ợ', ['o', '̛', '̣']),
  ('ú', ['u', '́']), ('ù', ['u', '̀']), ('ủ', ['u', '̉']),
  ('ũ', ['u', '̃']), ('ụ', ['u', '̣']),
  ('ư', ['u', '̛']), ('ứ', ['u', '̛', '́']),
  ('ừ', ['u', '̛', '̀']), ('ử', ['u', '̛', '̉']),
  ('ữ', ['u', '̛', '̃']), ('ự', ['u', '̛', '̣']),
  ('ý', ['y', '́']), ('ỳ', ['y', '̀']), ('ỷ', ['y', '̉']),
  ('ỹ', ['y', '̃']), ('ỵ', ['y', '̣'])]

/-- NFD decomposition of one character: table entries decompose, everything
else (ASCII, `đ`, emoji, the combining marks themselves) maps to itself. -/
def nfdChar (c : Char) : List Char :=
  match viNfdTable.lookup c with
  | some d => d
  | none => [c]

/-- `normalize_text` from app.py: `str(s).strip().lower()`, then
`unicodedata.normalize("NFD", s)` with category-Mn characters removed.
`unicodedata` is modelled by `viNfdTable`/`combiningMark`, restricted to
the characters this repository manipulates. -/
def normalize_text (s : String) : String :=
  if s.isEmpty then ""
  else
    (((pyLower (pyStrip s)).toList.map nfdChar).flatten.filter
      (fun c => !combiningMark c)).asString

/-- Lower-case alphanumeric characters, the `[a-z0-9]` of `tokenize_title`. -/
def isAlnumLower (c : Char) : Bool := ('a' ≤ c && c ≤ 'z') || isDigitChar c

/-- Maximal `[a-z0-9]` runs — equivalent to `re.split(r'[^a-z0-9]+', t)`
with the empty pieces filtered out. -/
def alnumRunsAux : List Char → List Char → List String
  | [], acc => if acc.isEmpty then [] else [acc.reverse.asString]
  | c :: t, acc =>
      if isAlnumLower c then alnumRunsAux t (c :: acc)
      else if acc.isEmpty then alnumRunsAux t []
      else acc.reverse.asString :: alnumRunsAux t []

/-- `tokenize_title` from app.py: normalize, then split into alnum tokens. -/
def tokenize_title (title : String) : List String :=
  if title.isEmpty then []
  else alnumRunsAux (normalize_text title).toList []

/-! ### Notion number rendering (`str` of a float) -/

/-- Greatest `k` with `p^k` dividing `n` (fuel-driven; `n` is enough fuel). -/
def maxPowFuel (p : Nat) : Nat → Nat → Nat
  | 0, _ => 0
  | fuel + 1, n =>
      if 1 < p ∧ 0 < n ∧ n % p = 0 then maxPowFuel p fuel (n / p) + 1 else 0

/-- Greatest `k` with `p^k` dividing `n`. -/
def maxPow (p n : Nat) : Nat := maxPowFuel p n n

/-- Left-pad a digit list with zeros to length `k`. -/
def padZeros (k : Nat) (ds : List Char) : List Char :=
  List.replicate (k - ds.length) '0' ++ ds

/-- Python `str` of a float whose exact value is the decimal rational `q`
(`1500 ↦ "1500.0"`, `0.3 ↦ "0.3"`).  Floats always have a `2^a * 5^b`
denominator, so the final branch is unreachable for values a float can
hold. -/
def ratDecimalStr (q : ℚ) : String :=
  let sign := if q < 0 then "-" else ""
  let n := q.num.natAbs
  let d := q.den
  let a := maxPow 2 d
  let b := maxPow 5 d
  if 2 ^ a * 5 ^ b = d then
    let k := max a b
    if k = 0 then sign ++ natDecimal n ++ ".0"
    else
      let scaled := n * 10 ^ k / d
      sign ++ natDecimal (scaled / 10 ^ k) ++ "." ++
        (padZeros k (natDigitsRev (scaled % 10 ^ k)).reverse).asString
  else sign ++ natDecimal n ++ "/" ++ natDecimal d

/-! ### Notion property values (`extract_prop_text` and friends,
app.py lines 272-375) -/

/-- A Notion formula property value (`prop["formula"]`); `none` in a field
models JSON `null`. -/
inductive FormulaVal where
  | fnumber (n : Option ℚ)
  | fstring (s : Option String)
  | fboolean (b : Option Bool)
  | fdate (start : Option String)
  | fother
deriving DecidableEq, Repr

/-- One element of a rollup array.  Notion sends dicts; the keys the
extractor probes are modelled as optional fields (`none` = key absent) and
`strRepr` stands for Python's `str(first)` fallback rendering. -/
structure RollItem where
  numberKey : Option (Option ℚ) := none
  titleKey : Option (List String) := none
  plainKey : Option String := none
  strRepr : String := ""
deriving DecidableEq, Repr

/-- A Notion page property value, by `prop["type"]`.  Rich-text arrays are
modelled as the list of their `plain_text` pieces.  `dateNone` is a date
property whose value was cleared (`prop["date"] is None`).  `rawBool` models
the bare Python `True` that `dao_preview_text_from_props` stores under the
`ONLY_LAI` key (it has no `type` field, so the extractor returns `""`). -/
inductive NProp where
  | title (parts : List String)
  | richText (parts : List String)
  | number (n : Option ℚ)
  | date (start : Option String)
  | dateNone
  | checkbox (b : Bool)
  | selectVal (s : Option String)
  | multiSelect (names : List String)
  | relation (ids : List String)
  | formula (f : FormulaVal)
  | rollupNumber (n : Option ℚ)
  | rollupArray (items : List RollItem)
  | rawBool (b : Bool)
deriving DecidableEq, Repr

/-- `extract_plain_text_from_rich_text`: concatenate the `plain_text`s. -/
def extract_plain_text_from_rich_text (arr : List String) : String :=
  String.join arr

/-- Python `", ".join(...)` for multi-select names. -/
def joinComma : List String → String
  | [] => ""
  | [s] => s
  | s :: t => s ++ ", " ++ joinComma t

/-- `find_prop_key` from app.py: first the key whose normalized name equals
the normalized query, then (fallback) the first key whose normalized name
contains it.  Iteration order is the dict's insertion order, kept by the
association list. -/
def find_prop_key (props : List (String × NProp)) (nameLike : String) :
    Option String :=
  match props.find? (fun kv => normalize_text kv.1 == normalize_text nameLike) with
  | some kv => some kv.1
  | none =>
      match props.find? (fun kv =>
          pyIn (normalize_text nameLike) (normalize_text kv.1)) with
      | some kv => some kv.1
      | none => none

/-- `extract_prop_text` from app.py: robust extractor over property types. -/
def extract_prop_text (props : List (String × NProp)) (keyLike : String) :
    String :=
  match find_prop_key props keyLike with
  | none => ""
  | some k =>
      match props.lookup k with
      | none => ""
      | some p =>
          match p with
          | .formula f =>
              match f with
              | .fnumber (some q) => ratDecimalStr q
              | .fstring (some s) => s
              | .fboolean (some b) => if b then "1" else "0"
              | .fdate (some st) => st
              | _ => ""
          | .rollupNumber (some q) => ratDecimalStr q
          | .rollupNumber none => ""
          | .rollupArray items =>
              match items with
              | [] => ""
              | first :: _ =>
                  match first.numberKey with
                  | some (some q) => ratDecimalStr q
                  | _ =>
                      match first.titleKey with
                      | some parts => extract_plain_text_from_rich_text parts
                      | none =>
                          match first.plainKey with
                          | some s => s
                          | none => first.strRepr
          | .title parts => extract_plain_text_from_rich_text parts
          | .richText parts => extract_plain_text_from_rich_text parts
          | .number (some q) => ratDecimalStr q
          | .number none => "None"
          | .date st => st.getD ""
          | .dateNone => ""
          | .checkbox b => if b then "1" else "0"
          | .selectVal s => s.getD ""
          | .multiSelect names => joinComma names
          | .relation [] => ""
          | .relation (i :: _) => i
          | .rawBool _ => ""

/-- `props.get(k, {}).get("checkbox")` coerced to a truth value. -/
def propCheckbox (props : List (String × NProp)) (k : String) : Bool :=
  match props.lookup k with
  | some (.checkbox b) => b
  | _ => false

/-- `props.get(k, {}).get("type") == "checkbox"`. -/
def propIsCheckbox (props : List (String × NProp)) (k : String) : Bool :=
  match props.lookup k with
  | some (.checkbox _) => true
  | _ => false

/-- `df = props.get(k, {}).get("date"); date_iso = df.get("start") if df`. -/
def propDateStart (props : List (String × NProp)) (k : String) : Option String :=
  match props.lookup k with
  | some (.date st) => st
  | _ => none

/-- `extract_prop_text(props, "Name") or extract_prop_text(props, "Title")`. -/
def pageTitle (props : List (String × NProp)) : String :=
  let t := extract_prop_text props "Name"
  if t ≠ "" then t else extract_prop_text props "Title"

/-- The checkbox key chain used by both `find_calendar_matches` and the mark
handlers: `find_prop_key(props, "Đã Góp") or ... "Sent" or ... "Status"`. -/
def calCbKey (props : List (String × NProp)) : Option String :=
  match find_prop_key props "Đã Góp" with
  | some k => some k
  | none =>
      match find_prop_key props "Sent" with
      | some k => some k
      | none => find_prop_key props "Status"

/-- `if cb_key and props.get(cb_key, {}).get("checkbox")`: the resolved
checkbox of a calendar page (false when no key resolves). -/
def calChecked (props : List (String × NProp)) : Bool :=
  match calCbKey props with
  | some k => propCheckbox props k
  | none => false

/-! ### Keyword matching and `find_calendar_matches`
(app.py lines 377-501) -/

/-- The title-matching block repeated verbatim in `find_target_matches`,
`find_calendar_matches`, `find_matching_all_pages_in_db` and the archive
branch of `handle_incoming_message` (`kw` is the already-normalized
keyword): exact normalized-title equality; else, for a `g<digits>` keyword,
a token whose `normalize_gcode` equals the keyword's; else keyword-in-token
substring search; else `title_clean.startswith(kw + "-")`. -/
def keywordMatches (kw : String) (title : String) : Bool :=
  let titleClean := normalize_text title
  let tokens := tokenize_title title
  let isG := (gcodeDigits kw).isSome
  (titleClean == kw) ||
  (isG && tokens.any (fun tk => normalize_gcode tk == normalize_gcode kw)) ||
  (!isG && tokens.any (fun tk => pyIn kw tk)) ||
  pyStartsWith titleClean (kw ++ "-")

/-- A Notion page, as returned by `query_database_all`. -/
structure NPage where
  id : String
  props : List (String × NProp)
deriving DecidableEq, Repr

/-- One `find_calendar_matches` result tuple `(id, title, date_iso, props)`. -/
structure CalMatch where
  id : String
  title : String
  dateIso : Option String
  props : List (String × NProp)
deriving DecidableEq, Repr

/-- Stable insertion w.r.t. a strict order: `x` goes after everything
strictly below it, and before equal elements that were inserted later. -/
def insSortAux {α : Type} (lt : α → α → Bool) (x : α) : List α → List α
  | [] => [x]
  | y :: t => if lt y x then y :: insSortAux lt x t else x :: y :: t

/-- Stable sort by a strict order (CPython's `list.sort` is stable; only
membership is used in the theorems below, which any permutation gives). -/
def stableSortBy {α : Type} (lt : α → α → Bool) : List α → List α
  | [] => []
  | x :: t => insSortAux lt x (stableSortBy lt t)

/-- `key=lambda x: (x[2] is None, x[2] or "")`, ascending, as a strict order
(lexicographic on the pair, with `False < True`). -/
def calDateKeyLt (a b : CalMatch) : Bool :=
  (!a.dateIso.isNone && b.dateIso.isNone) ||
  (a.dateIso.isNone == b.dateIso.isNone &&
    decide (a.dateIso.getD "" < b.dateIso.getD ""))

/-- `find_calendar_matches` from app.py, over the queried calendar pages
(the configured-database guard and the HTTP query are part of `Env`):
match the keyword, drop pages whose resolved checkbox is already ticked,
read `Ngày Góp`, sort ascending by `(date is None, date)`. -/
def find_calendar_matches (pages : List NPage) (keyword : String) :
    List CalMatch :=
  let kw := normalize_text keyword
  stableSortBy calDateKeyLt (pages.filterMap (fun p =>
    let title := pageTitle p.props
    if title = "" then none
    else if !keywordMatches kw title then none
    else if calChecked p.props then none
    else
      some { id := p.id, title := title,
             dateIso :=
               match find_prop_key p.props "Ngày Góp" with
               | some k => propDateStart p.props k
               | none => none,
             props := p.props }))

theorem mem_insSortAux {α : Type} (lt : α → α → Bool) (x z : α) (l : List α) :
    z ∈ insSortAux lt x l ↔ z = x ∨ z ∈ l := by
  induction l with
  | nil => simp [insSortAux]
  | cons y t ih =>
      unfold insSortAux
      by_cases h : lt y x
      · rw [if_pos h]
        simp only [List.mem_cons, ih]
        tauto
      · rw [if_neg h]
        simp only [List.mem_cons]

theorem mem_stableSortBy {α : Type} (lt : α → α → Bool) (z : α) (l : List α) :
    z ∈ stableSortBy lt l ↔ z ∈ l := by
  induction l with
  | nil => simp [stableSortBy]
  | cons x t ih =>
      unfold stableSortBy
      rw [mem_insSortAux, ih]
      simp

/-! ### Effects, state, environment -/

/-- A property value in an outgoing Notion request payload.  Calendar dates
are day indices (see `Env.todayVN`); their ISO rendering is not modelled. -/
inductive PVal where
  | checkbox (b : Bool)
  | number (q : ℚ)
  | dateDay (d : Nat)
  | titleTxt (s : String)
  | relation (ids : List String)
  | selectVal (s : String)
deriving DecidableEq, Repr

/-- Which Notion database a page-creation request targets. -/
inductive DbTag where
  | calendarDb
  | laiDb
deriving DecidableEq, Repr

/-- One observable side effect of a handler: a Telegram send/edit, a Notion
mutation (archive / unarchive / properties PATCH / page POST), or spawning
a `switch_app` background flow. -/
inductive Eff where
  | tele (chatId : String) (text : String)
  | editTele (chatId : String) (text : String)
  | notionArchive (pageId : String)
  | notionUnarchive (pageId : String)
  | notionUpdate (pageId : String) (payload : List (String × PVal))
  | notionCreate (db : DbTag) (payload : List (String × PVal))
  | spawnSwitch (which : String) (kw : String)
deriving DecidableEq, Repr

/-- Does the effect mutate Notion state (create, update, or archive)? -/
def Eff.isNotionMutation : Eff → Bool
  | .notionArchive _ => true
  | .notionUnarchive _ => true
  | .notionUpdate _ _ => true
  | .notionCreate _ _ => true
  | _ => false

/-- One record on the in-memory `undo_stack` (app.py / switch_app.py). -/
inductive UndoRec where
  | markRec (pages : List String)
  | archiveRec (pages : List String)
  | daoRec (archivedPages : List String) (createdPages : List String)
      (laiPage : Option String)
  | switchOnRec (targetId : String) (snapshot : List (String × Option NProp))
      (createdPages : List String)
  | switchOffRec (targetId : String) (snapshot : List (String × NProp))
      (archivedPages : List String) (laiPage : Option String)
deriving DecidableEq, Repr

/-- Python dict assignment `m[k] = v` on an association list: replace the
existing binding in place, else append. -/
def mapSet {α : Type} : List (String × α) → String → α → List (String × α)
  | [], k, v => [(k, v)]
  | (k', v') :: t, k, v =>
      if k' = k then (k, v) :: t else (k', v') :: mapSet t k v

/-- Python `del m[k]` / `m.pop(k, None)`: drop the binding. -/
def mapDel {α : Type} : List (String × α) → String → List (String × α)
  | [], _ => []
  | (k', v') :: t, k => if k' = k then t else (k', v') :: mapDel t k

/-- The `undo_stack` dict: chat-id string to list of undo records. -/
abbrev UndoMap := List (String × List UndoRec)

/-- `undo_stack.setdefault(chat, []).append(r)`. -/
def undoPush (m : UndoMap) (k : String) (r : UndoRec) : UndoMap :=
  match m.lookup k with
  | some l => mapSet m k (l ++ [r])
  | none => m ++ [(k, [r])]

/-- `undo_stack[chat].pop()`: pop the most recent record. -/
def undoPop (m : UndoMap) (k : String) : Option UndoRec × UndoMap :=
  match m.lookup k with
  | some l =>
      match l.getLast? with
      | some r => (some r, mapSet m k l.dropLast)
      | none => (none, m)
  | none => (none, m)

/-- The environment of one handler invocation: configuration, the database
contents the HTTP queries would return, the wall clock and calendar dates,
and outcome oracles for the HTTP mutations (the request itself is always
recorded as an effect; the oracle decides which branch the code takes on
the response). -/
structure Env where
  telegramChatId : String := ""
  calendarPages : List NPage := []
  targetPages : List NPage := []
  laConfigured : Bool := true
  now : Nat := 0
  todayVN : Nat := 0
  todayLocal : Nat := 0
  updateOk : String → Bool := fun _ => true
  archiveOk : String → Bool := fun _ => true
  createOk : Nat → Bool := fun _ => true
  createdId : Nat → String := fun _ => ""
  laiOk : Bool := true
  laiId : String := ""

/-- `WAIT_CONFIRM` (env default 120 seconds). -/
def WAIT_CONFIRM : Nat := 120

/-! ### `mark_pages_by_indices` (app.py lines 659-690) -/

/-- Result of `mark_pages_by_indices`: the succeeded `(pid, title,
date_iso)` tuples and how many entries failed (the failure reasons feed
only Telegram messages). -/
structure MarkResult where
  succeeded : List (String × String × Option String)
  failedCount : Nat
deriving DecidableEq, Repr

/-- Loop body of `mark_pages_by_indices` for one index: out-of-range counts
as failed; otherwise PATCH the resolved checkbox key (falling back to the
literal `"Đã Góp"`) to `True` and record success/failure by the response. -/
def markStep (env : Env) (ms : List CalMatch)
    (acc : MarkResult × List Eff) (idx : Int) : MarkResult × List Eff :=
  let res := acc.1
  let effs := acc.2
  if idx < 1 ∨ idx > (ms.length : Int) then
    ({ res with failedCount := res.failedCount + 1 }, effs)
  else
    match ms[idx.toNat - 1]? with
    | none => ({ res with failedCount := res.failedCount + 1 }, effs)
    | some m =>
        let payload := [((calCbKey m.props).getD "Đã Góp", PVal.checkbox true)]
        let effs := effs ++ [Eff.notionUpdate m.id payload]
        if env.updateOk m.id then
          ({ res with succeeded := res.succeeded ++ [(m.id, m.title, m.dateIso)] },
            effs)
        else
          ({ res with failedCount := res.failedCount + 1 }, effs)

/-- `mark_pages_by_indices` from app.py.  Business rule: a single index
`n > 1` expands to `1..min(n, len(matches))`.  Pushes a `mark` undo record
when anything succeeded. -/
def mark_pages_by_indices (env : Env) (chatId : Int) (ms : List CalMatch)
    (indices : List Int) (undo : UndoMap) : MarkResult × UndoMap × List Eff :=
  let indices :=
    if indices.length = 1 ∧ indices.headD 0 > 1 then
      (List.range (min (indices.headD 0).toNat ms.length)).map
        (fun i : Nat => (i : Int) + 1)
    else indices
  let resEffs := indices.foldl (markStep env ms) (⟨[], 0⟩, [])
  let undo :=
    if resEffs.1.succeeded ≠ [] then
      undoPush undo (intDecimal chatId)
        (UndoRec.markRec (resEffs.1.succeeded.map (fun s => s.1)))
    else undo
  (resEffs.1, undo, resEffs.2)

theorem find_calendar_matches_unchecked (pages : List NPage) (kw : String)
    (m : CalMatch) (h : m ∈ find_calendar_matches pages kw) :
    calChecked m.props = false := by
  unfold find_calendar_matches at h
  rw [mem_stableSortBy] at h
  rcases List.mem_filterMap.mp h with ⟨p, _, hf⟩
  simp only at hf
  split_ifs at hf with h1 h2 h3
  have hm := Option.some_inj.mp hf
  subst hm
  exact Bool.eq_false_iff.mpr h3

theorem mem_of_getElemOpt {α : Type} {l : List α} {n : Nat} {a : α}
    (h : l[n]? = some a) : a ∈ l := by
  induction l generalizing n with
  | nil => simp at h
  | cons x t ih =>
      cases n with
      | zero =>
          rw [List.getElem?_cons_zero] at h
          cases h
          exact List.mem_cons_self _ _
      | succ k =>
          rw [List.getElem?_cons_succ] at h
          exact List.mem_cons_of_mem _ (ih h)

theorem markStep_effects_one (env : Env) (ms : List CalMatch)
    (acc : MarkResult × List Eff) (idx : Int) (e : Eff)
    (h : e ∈ (markStep env ms acc idx).2) :
    e ∈ acc.2 ∨ ∃ m ∈ ms,
      e = Eff.notionUpdate m.id
        [((calCbKey m.props).getD "Đã Góp", PVal.checkbox true)] := by
  unfold markStep at h
  split_ifs at h with h1
  · exact Or.inl h
  · rcases hg : ms[idx.toNat - 1]? with _ | m <;> rw [hg] at h
    · exact Or.inl h
    · simp only at h
      have hm : m ∈ ms := mem_of_getElemOpt hg
      split_ifs at h with h2 <;>
        rcases List.mem_append.mp h with h' | h'
      · exact Or.inl h'
      · exact Or.inr ⟨m, hm, List.mem_singleton.mp h'⟩
      · exact Or.inl h'
      · exact Or.inr ⟨m, hm, List.mem_singleton.mp h'⟩

theorem markFold_effects (env : Env) (ms : List CalMatch)
    (indices : List Int) (init : MarkResult × List Eff) (e : Eff)
    (h : e ∈ (indices.foldl (markStep env ms) init).2) :
    e ∈ init.2 ∨ ∃ m ∈ ms,
      e = Eff.notionUpdate m.id
        [((calCbKey m.props).getD "Đã Góp", PVal.checkbox true)] := by
  induction indices generalizing init with
  | nil => exact Or.inl h
  | cons idx rest ih =>
      rcases ih (markStep env ms init idx) h with h' | h'
      · exact markStep_effects_one env ms init idx e h'
      · exact Or.inr h'

/-- C7: every update issued by a mark operation over the candidates offered
by `find_calendar_matches` sets the resolved checkbox key — `Đã Góp`,
falling back to `Sent`, `Status`, or the literal `"Đã Góp"` when none
resolves — to `true`; and every candidate was unchecked when listed,
because `find_calendar_matches` drops pages whose resolved checkbox is
already ticked. -/
theorem c7_mark_sets_unchecked :
    (∀ (pages : List NPage) (kw : String) (m : CalMatch),
        m ∈ find_calendar_matches pages kw → calChecked m.props = false) ∧
    (∀ (env : Env) (chatId : Int) (pages : List NPage) (kw : String)
        (indices : List Int) (undo : UndoMap) (e : Eff),
        e ∈ (mark_pages_by_indices env chatId (find_calendar_matches pages kw)
              indices undo).2.2 →
        ∃ m : CalMatch, m ∈ find_calendar_matches pages kw ∧
          e = Eff.notionUpdate m.id
            [((calCbKey m.props).getD "Đã Góp", PVal.checkbox true)] ∧
          calChecked m.props = false) := by
  constructor
  · exact find_calendar_matches_unchecked
  · intro env chatId pages kw indices undo e he
    rcases markFold_effects env (find_calendar_matches pages kw) _ _ e he with
      h' | ⟨m, hm, he'⟩
    · exact absurd h' (List.not_mem_nil e)
    · exact ⟨m, hm, he', find_calendar_matches_unchecked pages kw m hm⟩

/-- A concrete unchecked calendar page for the C7 witness. -/
def c7page : NPage :=
  ⟨"p1", [("Name", NProp.title ["tam"]), ("Đã Góp", NProp.checkbox false),
          ("Ngày Góp", NProp.date (some "2024-01-01"))]⟩

/-- Witness for C7 at a concrete input. -/
theorem c7_mark_sets_unchecked_witness :
    ∃ m : CalMatch, m ∈ find_calendar_matches [c7page] "tam" ∧
      Eff.notionUpdate "p1" [("Đã Góp", PVal.checkbox true)] =
        Eff.notionUpdate m.id
          [((calCbKey m.props).getD "Đã Góp", PVal.checkbox true)] ∧
      calChecked m.props = false :=
  c7_mark_sets_unchecked.2 {} 7 [c7page] "tam" [1] []
    (Eff.notionUpdate "p1" [("Đã Góp", PVal.checkbox true)]) (by decide)

/-! ### Notion POST/PATCH wrappers (`_notion_post` / `_notion_patch`,
app.py lines 144-178) -/

/-- The outcome of one HTTP attempt: either `requests` raised an exception,
or a response arrived with a status code, a body text, a JSON body, and a
flag for whether `r.json()` parses.  (Retry delays — `time.sleep(1 + i)` —
are not modelled; only the control flow is.) -/
inductive HttpAttempt where
  | exc (msg : String)
  | resp (status : Nat) (text : String) (jsonBody : String) (jsonParses : Bool)
deriving DecidableEq, Repr

/-- The value a wrapper returns: the parsed JSON body on success, the
`{"status": ..., "text": ...}` dict on a hard failure, or `str(last_exc)`
after exhausting all attempts. -/
inductive NotionReply where
  | jsonBody (j : String)
  | statusText (status : Nat) (text : String)
  | excText (e : String)
deriving DecidableEq, Repr

/-- The loop of `_notion_post` over the remaining attempts.  `lastExc`
mirrors the Python local `last_exc`, which is assigned only in the
`except` clause; if the loop ends without it ever being assigned, the
final `return False, str(last_exc)` raises `UnboundLocalError` (`.error`).
A 200/201 response whose body fails to parse raises inside the `try`, so
it is caught and retried like an exception. -/
def notionPostGo (attempt : Nat → HttpAttempt) :
    Nat → Nat → Option String → Except String (Bool × NotionReply)
  | 0, _, lastExc =>
      match lastExc with
      | some e => .ok (false, .excText e)
      | none => .error "UnboundLocalError: last_exc"
  | r + 1, i, lastExc =>
      match attempt i with
      | .exc e => notionPostGo attempt r (i + 1) (some e)
      | .resp st text body parses =>
          if st = 200 ∨ st = 201 then
            if parses then .ok (true, .jsonBody body)
            else notionPostGo attempt r (i + 1) (some "json decode error")
          else if st ≥ 500 then notionPostGo attempt r (i + 1) lastExc
          else .ok (false, .statusText st text)

/-- `_notion_post` (attempts = 3). -/
def _notion_post (attempt : Nat → HttpAttempt) :
    Except String (Bool × NotionReply) :=
  notionPostGo attempt 3 0 none

/-- The loop of `_notion_patch`: success statuses are 200/204, and the body
is `r.json() if r.text else {}` inside its own `try`, so a parse failure
yields `{}` (here rendered as the empty JSON body) instead of retrying. -/
def notionPatchGo (attempt : Nat → HttpAttempt) :
    Nat → Nat → Option String → Except String (Bool × NotionReply)
  | 0, _, lastExc =>
      match lastExc with
      | some e => .ok (false, .excText e)
      | none => .error "UnboundLocalError: last_exc"
  | r + 1, i, lastExc =>
      match attempt i with
      | .exc e => notionPatchGo attempt r (i + 1) (some e)
      | .resp st text body parses =>
          if st = 200 ∨ st = 204 then
            if text = "" then .ok (true, .jsonBody "{}")
            else if parses then .ok (true, .jsonBody body)
            else .ok (true, .jsonBody "{}")
          else if st ≥ 500 then notionPatchGo attempt r (i + 1) lastExc
          else .ok (false, .statusText st text)

/-- `_notion_patch` (attempts = 3). -/
def _notion_patch (attempt : Nat → HttpAttempt) :
    Except String (Bool × NotionReply) :=
  notionPatchGo attempt 3 0 none

/-- C6, evaluation at the failing input.  When every one of the three
attempts returns a 500-range status and none raises, the Python local
`last_exc` was never assigned, so `return False, str(last_exc)` raises
`UnboundLocalError` instead of returning a `(False, reason)` pair; the
wrappers do satisfy the claim's other clauses (success statuses return
`(True, body)`, other non-success statuses return immediately, retries
happen only on exceptions and statuses ≥ 500).  This theorem exhibits the
divergence concretely for both wrappers, together with sample runs of the
behaviours the claim describes correctly. -/
theorem c6_notion_retry_code_bug :
    _notion_post (fun _ => .resp 500 "server error" "" true) =
      .error "UnboundLocalError: last_exc" ∧
    _notion_patch (fun _ => .resp 503 "unavailable" "" true) =
      .error "UnboundLocalError: last_exc" ∧
    _notion_post (fun _ => .resp 200 "ok" "\x7b\"id\": \"x\"\x7d" true) =
      .ok (true, .jsonBody "\x7b\"id\": \"x\"\x7d") ∧
    _notion_post (fun _ => .resp 404 "missing" "" true) =
      .ok (false, .statusText 404 "missing") ∧
    _notion_post (fun i => if i = 0 then .exc "timeout"
      else .resp 201 "ok" "{}" true) = .ok (true, .jsonBody "{}") ∧
    _notion_post (fun _ => .exc "timeout") = .ok (false, .excText "timeout") ∧
    _notion_patch (fun _ => .resp 204 "" "" false) =
      .ok (true, .jsonBody "{}") := by
  refine ⟨rfl, rfl, rfl, rfl, rfl, rfl, rfl⟩

/-! ### `parse_money_from_text` (app.py lines 364-375) and Python numerics -/

/-- The `\d+\.?\d*` tail of the money regex at a position that holds a
digit: the greedy digit run, then an optional dot with more digits. -/
def moneyDigits (cs : List Char) : List Char × List Char :=
  let ds := cs.takeWhile isDigitChar
  match cs.drop ds.length with
  | '.' :: r => (ds, r.takeWhile isDigitChar)
  | _ => (ds, [])

/-- `re.search(r"-?\d+\.?\d*", s)`: scan left to right for the first
position where the pattern matches (a digit, or a minus directly followed
by a digit); returns (negative?, integer digits, fraction digits). -/
def moneyScan : List Char → Option (Bool × List Char × List Char)
  | [] => none
  | '-' :: rest =>
      match rest with
      | c :: _ =>
          if isDigitChar c then some (true, moneyDigits rest)
          else moneyScan rest
      | [] => none
  | c :: rest =>
      if isDigitChar c then some (false, moneyDigits (c :: rest))
      else moneyScan rest

/-- The exact rational value of a sign / integer-digits / fraction-digits
triple (the float value Python computes), built with a single `mkRat` so
that the kernel can evaluate it. -/
def decimalVal (neg : Bool) (ds fs : List Char) : ℚ :=
  let v := mkRat (digitsVal ds * 10 ^ fs.length + digitsVal fs) (10 ^ fs.length)
  if neg then -v else v

/-- `parse_money_from_text` from app.py: remove commas, take the first
`-?\d+\.?\d*` match as an exact rational (floats are modelled by ℚ), and
return 0 when there is no number. -/
def parse_money_from_text (s : Option String) : ℚ :=
  match s with
  | none => 0
  | some s =>
      match moneyScan (s.toList.filter (fun c => c ≠ ',')) with
      | none => 0
      | some (neg, ds, fs) => decimalVal neg ds fs

/-- Mathematical floor of a rational. -/
def ratFloor (q : ℚ) : Int := Int.fdiv q.num q.den

/-- Mathematical ceiling of a rational (`math.ceil`). -/
def ratCeil (q : ℚ) : Int := -(ratFloor (-q))

/-- Python `int()` on a float value: truncation toward zero. -/
def pyTrunc (q : ℚ) : Int := if q < 0 then ratCeil q else ratFloor q

/-- Python `float(s)` restricted to plain decimal literals (optional
whitespace and sign, digits with at most one dot).  Exponent forms,
`inf`/`nan` and underscores are not modelled — they do not occur in the
bot's Notion data; anything unparsable raises (`none`). -/
def pyFloat (s : String) : Option ℚ :=
  match pyStripList s.toList with
  | [] => none
  | cs =>
      let sb : Bool × List Char :=
        match cs with
        | '-' :: r => (true, r)
        | '+' :: r => (false, r)
        | r => (false, r)
      let ds := sb.2.takeWhile isDigitChar
      match sb.2.drop ds.length with
      | [] =>
          if ds = [] then none
          else some (decimalVal sb.1 ds [])
      | '.' :: r =>
          let fs := r.takeWhile isDigitChar
          if r.drop fs.length = [] ∧ (ds ≠ [] ∨ fs ≠ []) then
            some (decimalVal sb.1 ds fs)
          else none
      | _ => none

/-! ### The đáo (rollover) flow (`create_lai_page` lines 832-863,
`dao_create_pages_from_props` lines 867-1101).  Telegram message texts are
abbreviated throughout: no claim depends on them. -/

/-- `create_lai_page` from app.py: POST one page into
`LA_NOTION_DATABASE_ID` with `Name` = title, `Lai` = the interest amount,
`ngày lai` = today's (server-local) date, and a `Lịch G` relation back to
the source page; return the new page id, or `None` when the POST fails. -/
def create_lai_page (env : Env) (chatId : Int) (title : String)
    (laiAmount : ℚ) (relationId : String) : Option String × List Eff :=
  let payload := [("Name", PVal.titleTxt title),
    ("Lai", PVal.number laiAmount),
    ("ngày lai", PVal.dateDay env.todayLocal),
    ("Lịch G", PVal.relation [relationId])]
  if env.laiOk then
    (some env.laiId,
     [Eff.notionCreate .laiDb payload,
      Eff.tele (intDecimal chatId) ("💰 Đã tạo Lãi cho " ++ title)])
  else
    (none,
     [Eff.notionCreate .laiDb payload,
      Eff.tele (intDecimal chatId) "⚠️ Tạo Lãi lỗi"])

/-- `title = extract_prop_text(props, "Name") or "UNKNOWN"`. -/
def daoTitle (props : List (String × NProp)) : String :=
  let t := extract_prop_text props "Name"
  if t ≠ "" then t else "UNKNOWN"

/-- `per_day = parse_money_from_text(extract_prop_text(props, "G ngày")) or 0`. -/
def daoPerDay (props : List (String × NProp)) : ℚ :=
  parse_money_from_text (some (extract_prop_text props "G ngày"))

/-- `days_before = parse_money_from_text(extract_prop_text(props, "ngày trước")) or 0`. -/
def daoDaysBefore (props : List (String × NProp)) : ℚ :=
  parse_money_from_text (some (extract_prop_text props "ngày trước"))

/-- `pre_amount = parse_money_from_text(extract_prop_text(props, "trước")) or 0`. -/
def daoPreAmount (props : List (String × NProp)) : ℚ :=
  parse_money_from_text (some (extract_prop_text props "trước"))

/-- `take_days = int(days_before) if days_before else
int(math.ceil(pre_amount / per_day)) if per_day else 0`. -/
def daoTakeDays (props : List (String × NProp)) : Int :=
  if daoDaysBefore props ≠ 0 then pyTrunc (daoDaysBefore props)
  else if daoPerDay props ≠ 0 then ratCeil (daoPreAmount props / daoPerDay props)
  else 0

/-- The `lai_text` fallback chain `"Lai lịch g" or "Lãi" or "Lai"`, parsed. -/
def daoLaiAmount (props : List (String × NProp)) : ℚ :=
  let t1 := extract_prop_text props "Lai lịch g"
  let t2 := if t1 ≠ "" then t1 else extract_prop_text props "Lãi"
  let t3 := if t2 ≠ "" then t2 else extract_prop_text props "Lai"
  parse_money_from_text (some t3)

/-- The calendar pages of one customer in `dao_create_pages_from_props`:
`kw = title.strip().lower()`, keep ids of pages whose `Name` contains `kw`
case-insensitively. -/
def daoChildPages (pages : List NPage) (title : String) : List String :=
  (pages.filter (fun p =>
    pyIn (pyLower (pyStrip title)) (pyLower (extract_prop_text p.props "Name")))).map
    (fun p => p.id)

/-- The payload of one newly created contribution-day page. -/
def daoDayPayload (title : String) (day : Nat) (perDay : ℚ)
    (sourcePageId : String) : List (String × PVal) :=
  [("Name", PVal.titleTxt title), ("Ngày Góp", PVal.dateDay day),
   ("Tiền", PVal.number perDay), ("Đã Góp", PVal.checkbox true),
   ("Lịch G", PVal.relation [sourcePageId])]

/-- How one run of `dao_create_pages_from_props` ends: early return
because no valid day count could be computed; a crash through the outer
`except` (branch 0's undo-log line reads the name `matched`, which that
branch never binds — its list is called `children` — so the append raises
`NameError`); or normal completion. -/
inductive DaoOutcome where
  | earlyNoDays
  | crashNameError
  | done
deriving DecidableEq, Repr

/-- `dao_create_pages_from_props` from app.py.  Branch 0 (`pre_amount ==
0`): archive the customer's days, create the Lãi page when configured and
positive, then crash with `NameError` at the undo append (nothing is
pushed).  Branch 1 (`pre_amount != 0`): compute `take_days` (early return
if not positive), archive the matching days, create `take_days` new pages
on consecutive days starting tomorrow (Vietnam time), create the Lãi page
when configured and positive, and push a `dao` undo record. -/
def dao_create_pages_from_props (env : Env) (chatId : Int)
    (sourcePageId : String) (props : List (String × NProp)) (undo : UndoMap) :
    UndoMap × List Eff × DaoOutcome :=
  let chat := intDecimal chatId
  let title := daoTitle props
  let startEffs := [Eff.tele chat ("⏳ Đang xử lý đáo cho " ++ title)]
  if daoPreAmount props = 0 then
    let children := daoChildPages env.calendarPages title
    let laiEffs :=
      if env.laConfigured ∧ 0 < daoLaiAmount props then
        (create_lai_page env chatId title (daoLaiAmount props) sourcePageId).2
      else [Eff.tele chat "ℹ️ Không có giá trị Lãi hoặc chưa cấu hình LA_NOTION_DATABASE_ID."]
    (undo,
     startEffs ++ children.map Eff.notionArchive ++ laiEffs ++
       [Eff.tele chat "❌ Lỗi tiến trình đáo (NameError: name matched is not defined)"],
     .crashNameError)
  else
    if daoTakeDays props ≤ 0 then
      (undo, startEffs ++ [Eff.tele chat "⚠️ Không tính được số ngày hợp lệ"],
       .earlyNoDays)
    else
      let matched := daoChildPages env.calendarPages title
      let createEffs := (List.range (daoTakeDays props).toNat).map (fun i =>
        Eff.notionCreate .calendarDb
          (daoDayPayload title (env.todayVN + 1 + i) (daoPerDay props) sourcePageId))
      let created := ((List.range (daoTakeDays props).toNat).filter
        (fun i => env.createOk i)).map env.createdId
      let laiRes :=
        if env.laConfigured ∧ 0 < daoLaiAmount props then
          let r := create_lai_page env chatId title (daoLaiAmount props) sourcePageId
          (r.1, r.2 ++ [Eff.tele chat ("💰 Đã tạo Lãi cho " ++ title)])
        else ((none : Option String),
          [Eff.tele chat "ℹ️ Không có giá trị Lãi hoặc chưa cấu hình LA_NOTION_DATABASE_ID."])
      (undoPush undo chat (UndoRec.daoRec matched created laiRes.1),
       startEffs ++ matched.map Eff.notionArchive ++ createEffs ++ laiRes.2 ++
         [Eff.tele chat "🎉 Hoàn tất đáo vào đặt lại Repeat every day liền!"],
       .done)

/-- The Lãi-database page creations among a list of effects. -/
def laiCreateReqs (effs : List Eff) : List Eff :=
  effs.filter (fun e =>
    match e with | Eff.notionCreate DbTag.laiDb _ => true | _ => false)

theorem filter_map_const_false {α : Type} (p : Eff → Bool) (f : α → Eff)
    (h : ∀ a, p (f a) = false) (l : List α) :
    (l.map f).filter p = [] := by
  induction l with
  | nil => rfl
  | cons x t ih =>
      rw [List.map_cons, List.filter_cons_of_neg (by simp [h x]), ih]

theorem laiCreateReqs_create_lai_page (env : Env) (chatId : Int)
    (title : String) (amt : ℚ) (rel : String) :
    laiCreateReqs (create_lai_page env chatId title amt rel).2 =
      [Eff.notionCreate DbTag.laiDb
        [("Name", PVal.titleTxt title), ("Lai", PVal.number amt),
         ("ngày lai", PVal.dateDay env.todayLocal),
         ("Lịch G", PVal.relation [rel])]] := by
  unfold create_lai_page laiCreateReqs
  by_cases ho : env.laiOk
  · rw [if_pos ho]; rfl
  · rw [if_neg ho]; rfl

/-- C5: whenever a rollover run gets past the early `take_days` exit (on
both the no-pre-take branch — which crashes only after the Lãi step — and
the full branch), the Lãi page-creation request is issued exactly when
`LA_NOTION_DATABASE_ID` is configured and the parsed interest amount is
positive, and its payload is `Name` = the target's title, `Lai` = the
parsed amount, `ngày lai` = today's date, and a `Lịch G` relation to the
source page; `create_lai_page` itself always issues exactly that request. -/
theorem c5_lai_on_completion :
    (∀ (env : Env) (chatId : Int) (src : String)
        (props : List (String × NProp)) (undo : UndoMap),
        (dao_create_pages_from_props env chatId src props undo).2.2 ≠
            DaoOutcome.earlyNoDays →
        laiCreateReqs
            (dao_create_pages_from_props env chatId src props undo).2.1 =
          if env.laConfigured ∧ 0 < daoLaiAmount props then
            [Eff.notionCreate DbTag.laiDb
              [("Name", PVal.titleTxt (daoTitle props)),
               ("Lai", PVal.number (daoLaiAmount props)),
               ("ngày lai", PVal.dateDay env.todayLocal),
               ("Lịch G", PVal.relation [src])]]
          else []) ∧
    (∀ (env : Env) (chatId : Int) (title : String) (amt : ℚ) (rel : String),
        laiCreateReqs (create_lai_page env chatId title amt rel).2 =
          [Eff.notionCreate DbTag.laiDb
            [("Name", PVal.titleTxt title), ("Lai", PVal.number amt),
             ("ngày lai", PVal.dateDay env.todayLocal),
             ("Lịch G", PVal.relation [rel])]]) := by
  constructor
  · intro env chatId src props undo hout
    unfold dao_create_pages_from_props at hout ⊢
    by_cases h0 : daoPreAmount props = 0
    · rw [if_pos h0]
      simp only []
      unfold laiCreateReqs
      rw [List.filter_append, List.filter_append, List.filter_append]
      rw [filter_map_const_false _ _ (fun a => rfl)]
      by_cases hl : env.laConfigured ∧ 0 < daoLaiAmount props
      · rw [if_pos hl, if_pos hl]
        have := laiCreateReqs_create_lai_page env chatId (daoTitle props)
          (daoLaiAmount props) src
        unfold laiCreateReqs at this
        rw [this]
        rfl
      · rw [if_neg hl, if_neg hl]
        rfl
    · rw [if_neg h0] at hout ⊢
      by_cases hd : daoTakeDays props ≤ 0
      · rw [if_pos hd] at hout
        exact absurd rfl hout
      · rw [if_neg hd]
        simp only []
        unfold laiCreateReqs
        rw [List.filter_append, List.filter_append, List.filter_append,
          List.filter_append]
        rw [filter_map_const_false _ _ (fun a => rfl),
          filter_map_const_false _ _ (fun a => rfl)]
        by_cases hl : env.laConfigured ∧ 0 < daoLaiAmount props
        · rw [if_pos hl, if_pos hl]
          simp only [List.filter_append]
          have := laiCreateReqs_create_lai_page env chatId (daoTitle props)
            (daoLaiAmount props) src
          unfold laiCreateReqs at this
          rw [this]
          rfl
        · rw [if_neg hl, if_neg hl]
          rfl
  · exact laiCreateReqs_create_lai_page

/-- Concrete target properties for the C4/C5 witnesses. -/
def c45props : List (String × NProp) :=
  [("Name", NProp.title ["G1-tam"]),
   ("G ngày", NProp.richText ["500"]),
   ("ngày trước", NProp.richText ["3"]),
   ("trước", NProp.richText ["1500"]),
   ("Lai lịch g", NProp.richText ["200"])]

/-- Concrete environment for the C4/C5 witnesses. -/
def c45env : Env := { calendarPages := [c7page], todayVN := 100 }

/-- Witness for C5 at a concrete input. -/
theorem c5_lai_on_completion_witness :
    laiCreateReqs (dao_create_pages_from_props c45env 7 "src" c45props []).2.1 =
      if c45env.laConfigured ∧ 0 < daoLaiAmount c45props then
        [Eff.notionCreate DbTag.laiDb
          [("Name", PVal.titleTxt (daoTitle c45props)),
           ("Lai", PVal.number (daoLaiAmount c45props)),
           ("ngày lai", PVal.dateDay c45env.todayLocal),
           ("Lịch G", PVal.relation ["src"])]]
      else [] :=
  c5_lai_on_completion.1 c45env 7 "src" c45props [] (by decide)

/-! ### The pending-confirmation state machine
(`pending_confirm`, `handle_incoming_message`, the selection handlers,
`sweep_pending_expirations`, `stop_waiting_animation`). -/

/-- One `find_target_matches` result tuple `(id, title, props)`. -/
structure TMatch where
  id : String
  title : String
  props : List (String × NProp)
deriving DecidableEq, Repr

/-- `find_target_matches` (app.py lines 378-431) over the queried target
pages: `kw = normalize_text(keyword).strip()`, then the shared matching
block; no checkbox filter, no sort. -/
def find_target_matches (pages : List NPage) (keyword : String) :
    List TMatch :=
  pages.filterMap (fun p =>
    let title := pageTitle p.props
    if title = "" then none
    else if keywordMatches (pyStrip (normalize_text keyword)) title then
      some ⟨p.id, title, p.props⟩
    else none)

/-- One `pending_confirm` entry.  The Python dict holds a `"type"` string
plus type-dependent keys, all modelled as fields with defaults (the single
`"matches"` key holds calendar 4-tuples for mark/archive entries and
target 3-tuples for đáo entries, modelled as two fields).  Timestamps are
`Nat` seconds. -/
structure PendingEntry where
  type : String
  keyword : String := ""
  calMatches : List CalMatch := []
  targetMatches : List TMatch := []
  targets : List TMatch := []
  previewText : String := ""
  title : String := ""
  expires : Nat := 0
  timerMessageId : Option Nat := none
deriving DecidableEq, Repr

/-- The two process-wide dictionaries: `pending_confirm` and `undo_stack`. -/
structure BotState where
  pending : List (String × PendingEntry)
  undo : UndoMap
deriving DecidableEq, Repr

/-- `count_checked_unchecked` (app.py lines 631-657): exact-token match on
the `-`-separated title parts, tally by the resolved checkbox (only when
its type really is checkbox). -/
def count_checked_unchecked (pages : List NPage) (keyword : String) :
    Nat × Nat :=
  pages.foldl (fun acc p =>
    let titleClean := normalize_text (extract_prop_text p.props "Name")
    if ((pySplitChar '-' titleClean).map pyStrip).contains
          (normalize_text keyword) ∨ titleClean = normalize_text keyword then
      let checkedFlag :=
        match calCbKey p.props with
        | some k => propIsCheckbox p.props k && propCheckbox p.props k
        | none => false
      if checkedFlag then (acc.1 + 1, acc.2) else (acc.1, acc.2 + 1)
    else acc) (0, 0)

/-- `"\n\n".join(...)`. -/
def joinNl2 : List String → String
  | [] => ""
  | [s] => s
  | s :: t => s ++ "\n\n" ++ joinNl2 t

/-- `dao_preview_text_from_props` (app.py lines 567-628): returns
`(can, preview)` and possibly mutates `props` (storing the bare Python
`True` under `ONLY_LAI`); returned here as `(can, preview, props')`.
Preview texts are abbreviated (they feed only Telegram messages); the
date rendering uses the day-index clock. -/
def dao_preview_text_from_props (env : Env) (title : String)
    (props : List (String × NProp)) :
    Bool × String × List (String × NProp) :=
  let daoT1 := extract_prop_text props "Đáo/thối"
  let daoText := if daoT1 ≠ "" then daoT1 else extract_prop_text props "Đáo"
  let totalVal := parse_money_from_text (some daoText)
  let rawDays := extract_prop_text props "ngày trước"
  let daysBefore : Int :=
    if rawDays = "" ∨ rawDays = "None" then 0
    else match pyFloat rawDays with
      | some q => pyTrunc q
      | none => 0
  if pyIn "🔴" daoText then
    (false, "🔔 Chưa thể đáo cho 🔴: " ++ title ++ " .", props)
  else if pyIn "✅" daoText then
    if daysBefore ≤ 0 then
      (true,
       "🔔 đáo lại cho: " ++ title ++ " - Tổng CK: ✅ " ++
         intDecimal (pyTrunc totalVal) ++ " 📆 " ++ natDecimal (env.todayVN + 1),
       mapSet props "ONLY_LAI" (NProp.rawBool true))
    else
      (true,
       "🔔 Đáo lại cho: " ++ title ++ " 💴 Lấy trước: " ++
         intDecimal daysBefore ++ " 🏛️ Tổng CK: ✅ " ++
         intDecimal (pyTrunc totalVal),
       props)
  else
    (true,
     "🔔 đáo lại cho: " ++ title ++ " - Tổng CK: " ++
       intDecimal (pyTrunc totalVal) ++ " Không Lấy trước. Gửi /ok để chỉ tạo Lãi.",
     mapSet props "ONLY_LAI" (NProp.rawBool true))

/-- The cancel tokens checked by `handle_incoming_message` (line 1617). -/
def cancelTokens4 : List String := ["/cancel", "cancel", "hủy", "huy"]

/-- The cancel tokens of the selection handlers (they also accept `huỷ`). -/
def cancelTokens5 : List String := ["/cancel", "cancel", "hủy", "huỷ", "huy"]

/-- The confirmation tokens of `process_pending_selection_for_dao`. -/
def okTokens : List String := ["ok", "/ok", "yes", "đồng ý", "dong y"]

/-- `stop_waiting_animation` (app.py lines 118-125): force the chat's
pending `expires` to 0 (no-op when the chat has no pending entry). -/
def stop_waiting_animation (chatId : Int)
    (pending : List (String × PendingEntry)) :
    List (String × PendingEntry) :=
  match pending.lookup (intDecimal chatId) with
  | some e => mapSet pending (intDecimal chatId) { e with expires := 0 }
  | none => pending

/-- `process_pending_selection` (app.py lines 1388-1542): the MARK /
ARCHIVE selection handler, modelled synchronously (the code spawns it on
a daemon thread).  Note the interactive mark branch pushes no undo record
(only `mark_pages_by_indices`, used by auto-mark, does). -/
def process_pending_selection (env : Env) (chatId : Int) (raw : String)
    (s : BotState) : BotState × List Eff :=
  match s.pending.lookup (intDecimal chatId) with
  | none => (s, [Eff.tele (intDecimal chatId) "❌ Không có thao tác nào đang chờ."])
  | some data =>
      if cancelTokens5.contains (pyLower (pyStrip raw)) then
        ({ s with pending := mapDel s.pending (intDecimal chatId) },
         [Eff.tele (intDecimal chatId) "🛑 Đã hủy thao tác đang chờ."])
      else if data.calMatches = [] then
        ({ s with pending := mapDel s.pending (intDecimal chatId) },
         [Eff.tele (intDecimal chatId) "⚠️ Không tìm thấy danh sách mục đang xử lý."])
      else if parse_user_selection_text (pyLower (pyStrip raw))
          data.calMatches.length = [] then
        (s, [Eff.tele (intDecimal chatId) "⚠️ Không nhận được lựa chọn hợp lệ."])
      else if data.type = "archive_select" then
        let indices := parse_user_selection_text (pyLower (pyStrip raw))
          data.calMatches.length
        let selected := indices.filterMap (fun i =>
          if 1 ≤ i ∧ i ≤ (data.calMatches.length : Int) then
            data.calMatches[i.toNat - 1]?
          else none)
        if selected.length = 0 then
          ({ s with pending := mapDel s.pending (intDecimal chatId) },
           [Eff.tele (intDecimal chatId) "⚠️ Không có mục nào được chọn để xóa."])
        else
          let deleted := (selected.filter (fun m => env.archiveOk m.id)).map
            (fun m => m.id)
          ({ pending := mapDel s.pending (intDecimal chatId),
             undo := if deleted ≠ [] then
                 undoPush s.undo (intDecimal chatId) (UndoRec.archiveRec deleted)
               else s.undo },
           [Eff.tele (intDecimal chatId) ("🧹 Bắt đầu xóa mục của " ++ data.keyword)] ++
             selected.map (fun m => Eff.notionArchive m.id) ++
             [Eff.editTele (intDecimal chatId) "✅ Hoàn tất xóa 🎉"])
      else if data.type = "mark" then
        let indices := parse_user_selection_text (pyLower (pyStrip raw))
          data.calMatches.length
        let rE := indices.foldl (markStep env data.calMatches) (⟨[], 0⟩, [])
        let stats := count_checked_unchecked env.calendarPages data.keyword
        ({ s with pending := mapDel s.pending (intDecimal chatId) },
         [Eff.tele (intDecimal chatId) ("🟢 Bắt đầu đánh dấu cho " ++ data.keyword)] ++
           rE.2 ++
           [Eff.tele (intDecimal chatId)
             ("💴 Đã góp: " ++ natDecimal stats.1 ++ " Chưa góp: " ++
               natDecimal stats.2)])
      else
        ({ s with pending := mapDel s.pending (intDecimal chatId) },
         [Eff.tele (intDecimal chatId) "⚠️ Không xác định được loại thao tác."])

/-- One target of the OK branch of `process_pending_selection_for_dao`
(lines 1265-1369).  `truoc_val = float(extract("trước") or "0")` (0 on a
parse exception) decides no-take vs full đáo.  No-take: archive the
calendar pages related to the target through `Lịch G`, create the Lãi page
when configured and positive, and push a `dao` undo record whose
`archived_pages` list is ALWAYS empty — the comprehension filters
`children` (a list of id strings) with `isinstance(row, dict)`, false for
every element.  Full đáo: run `dao_create_pages_from_props` (the first,
4-argument call raises `TypeError` before its body runs; the
`except TypeError` fallback immediately makes the correct 3-argument
call). -/
def daoConfirmTarget (env : Env) (chatId : Int) (t : TMatch)
    (acc : UndoMap × List Eff) : UndoMap × List Eff :=
  let truocRaw0 := extract_prop_text t.props "trước"
  let truocRaw := if truocRaw0 ≠ "" then truocRaw0 else "0"
  let truocVal : ℚ := (pyFloat truocRaw).getD 0
  if truocVal = 0 then
    let children := (env.calendarPages.filter (fun p =>
      match find_prop_key p.props "Lịch G" with
      | some rk =>
          (match p.props.lookup rk with
           | some (NProp.relation ids) => ids.contains t.id
           | _ => false)
      | none => false)).map (fun p => p.id)
    let laiSt :=
      if env.laConfigured ∧ 0 < daoLaiAmount t.props then
        create_lai_page env chatId t.title (daoLaiAmount t.props) t.id
      else (none, [])
    (undoPush acc.1 (intDecimal chatId) (UndoRec.daoRec [] [] laiSt.1),
     acc.2 ++ [Eff.tele (intDecimal chatId) ("🧹 Đang xóa ngày cũ của " ++ t.title)] ++
       children.map Eff.notionArchive ++ laiSt.2)
  else
    let r := dao_create_pages_from_props env chatId t.id t.props acc.1
    (r.1, acc.2 ++ r.2.1)

/-- `process_pending_selection_for_dao` (app.py lines 1133-1386), run
synchronously.  `dao_choose`: parse the selection against the stored
target matches — an unparsable input (including every cancel token) is
"không hợp lệ" and leaves the entry in place — and on success REPLACE the
chat's entry by a `dao_confirm` entry with a fresh expiry.  `dao_confirm`:
cancel pops the entry; a non-OK token keeps it; OK processes every stored
target and pops the entry. -/
def process_pending_selection_for_dao (env : Env) (chatId : Int)
    (raw : String) (s : BotState) : BotState × List Eff :=
  match s.pending.lookup (intDecimal chatId) with
  | none => (s, [Eff.tele (intDecimal chatId) "⚠️ Không có thao tác đáo nào đang chờ."])
  | some data =>
      if data.type = "dao_choose" then
        if parse_user_selection_text raw data.targetMatches.length = [] then
          (s, [Eff.tele (intDecimal chatId) "⚠️ Lựa chọn không hợp lệ. Ví dụ 1 hoặc 1-2"])
        else
          let selPrev := (parse_user_selection_text raw
              data.targetMatches.length).foldl (fun acc i =>
            if 1 ≤ i ∧ i ≤ (data.targetMatches.length : Int) then
              match data.targetMatches[i.toNat - 1]? with
              | some t =>
                  let pv := dao_preview_text_from_props env t.title t.props
                  (acc.1 ++ [(⟨t.id, t.title, pv.2.2⟩ : TMatch)],
                   acc.2 ++ [pv.2.1])
              | none => acc
            else acc) (([] : List TMatch), ([] : List String))
          let entry : PendingEntry :=
            { type := "dao_confirm",
              targets := selPrev.1,
              previewText := joinNl2 selPrev.2,
              title := joinComma (selPrev.1.map (fun t => t.title)),
              expires := env.now + WAIT_CONFIRM,
              timerMessageId := none }
          ({ s with pending := mapSet s.pending (intDecimal chatId) entry },
           [Eff.tele (intDecimal chatId)
              ("🔔 Đáo lại cho: " ++ joinComma (selPrev.1.map (fun t => t.title)) ++
               "\n\n" ++ joinNl2 selPrev.2),
            Eff.tele (intDecimal chatId) "⚠️ Gõ /ok để xác nhận hoặc /cancel."])
      else if data.type = "dao_confirm" then
        if pyLower (pyStrip raw) = "" then
          (s, [Eff.tele (intDecimal chatId) "⚠️ Gửi /ok để xác nhận hoặc /cancel để hủy."])
        else if cancelTokens5.contains (pyLower (pyStrip raw)) then
          ({ s with pending := mapDel s.pending (intDecimal chatId) },
           [Eff.tele (intDecimal chatId) "❌ Đã hủy thao tác đáo."])
        else if !(okTokens.contains (pyLower (pyStrip raw))) then
          (s, [Eff.tele (intDecimal chatId) "⚠️ Gửi /ok để xác nhận hoặc /cancel để hủy."])
        else if data.targets = [] then
          ({ s with pending := mapDel s.pending (intDecimal chatId) },
           [Eff.tele (intDecimal chatId) "⚠️ Không có dữ liệu để đáo."])
        else
          let processed := data.targets.foldl
            (fun acc t => daoConfirmTarget env chatId t acc) (s.undo, [])
          ({ pending := mapDel s.pending (intDecimal chatId),
             undo := processed.1 },
           [Eff.tele (intDecimal chatId)
              ("✅ Đã xác nhận OK — đang xử lý đáo cho: " ++ data.title)] ++
             processed.2 ++
             [Eff.tele (intDecimal chatId) ("🎉 Hoàn tất đáo cho: " ++ data.title)])
      else
        (s, [])

/-- `parse_user_command` (app.py lines 1545-1581). -/
def parse_user_command (raw : String) : String × Nat × Option String :=
  if pyStrip raw = "" then ("", 0, none)
  else
    let parts := pySplitWs (pyStrip raw)
    let kw := parts.headD ""
    if parts.length > 1 ∧ pyIsDigit (parts[1]?.getD "") then
      (kw, digitsVal (parts[1]?.getD "").toList, some "mark")
    else if pyLower (pyStrip raw) = "undo" ∨ pyLower (pyStrip raw) = "/undo" then
      (kw, 0, some "undo")
    else if ["xóa", "archive", "del", "delete"].any
        (fun x => pyIn x (pyLower (pyStrip raw))) then
      (kw, 0, some "archive")
    else if ["đáo", "dao", "daó", "đáo hạn"].any
        (fun x => pyIn x (pyLower (pyStrip raw))) then
      (kw, 0, some "dao")
    else (kw, 0, none)

/-- `undo_last` (app.py lines 692-794), run synchronously.  Pops the most
recent record first (Python `list.pop()`), then dispatches: mark → untick
each page's `Đã Góp`; archive → unarchive each page; dao → archive the
created pages and the Lãi page, unarchive the archived ones; anything
else → "không hỗ trợ" (the record stays popped). -/
def undo_last (_env : Env) (chatId : Int) (s : BotState) : BotState × List Eff :=
  match s.undo.lookup (intDecimal chatId) with
  | none => (s, [Eff.tele (intDecimal chatId) "❌ Không có hành động nào để hoàn tác."])
  | some stack =>
      if stack = [] then
        (s, [Eff.tele (intDecimal chatId) "❌ Không có hành động nào để hoàn tác."])
      else
        match (undoPop s.undo (intDecimal chatId)).1 with
        | none => (s, [Eff.tele (intDecimal chatId) "❌ Không có dữ liệu undo."])
        | some log =>
            let s' := { s with undo := (undoPop s.undo (intDecimal chatId)).2 }
            match log with
            | UndoRec.markRec pages =>
                if pages = [] then
                  (s', [Eff.tele (intDecimal chatId) "⚠️ Không có page trong log undo."])
                else
                  (s', pages.map (fun pid =>
                      Eff.notionUpdate pid [("Đã Góp", PVal.checkbox false)]) ++
                    [Eff.editTele (intDecimal chatId) "✅ Hoàn tác"])
            | UndoRec.archiveRec pages =>
                if pages = [] then
                  (s', [Eff.tele (intDecimal chatId) "⚠️ Không có page trong log undo."])
                else
                  (s', pages.map Eff.notionUnarchive ++
                    [Eff.editTele (intDecimal chatId) "✅ Hoàn tác"])
            | UndoRec.daoRec archived created lai =>
                (s', [Eff.tele (intDecimal chatId) "♻️ Đang hoàn tác đáo..."] ++
                  created.map Eff.notionArchive ++
                  (match lai with
                   | some l => [Eff.notionArchive l]
                   | none => []) ++
                  archived.map Eff.notionUnarchive ++
                  [Eff.tele (intDecimal chatId) "✅ Hoàn tác đáo thành công."])
            | _ =>
                (s', [Eff.tele (intDecimal chatId) "⚠️ Không hỗ trợ undo cho action này."])

/-- The archive-branch match loop of `handle_incoming_message` (lines
1720-1769): the shared matching block, date from `Ngày Góp` or `Date`,
already-checked pages NOT excluded, sorted descending (`reverse=True`). -/
def archiveBranchMatches (pages : List NPage) (keyword : String) :
    List CalMatch :=
  stableSortBy (fun a b => calDateKeyLt b a) (pages.filterMap (fun p =>
    let title := pageTitle p.props
    if title = "" then none
    else if !keywordMatches (normalize_text keyword) title then none
    else
      some { id := p.id, title := title,
             dateIso :=
               match (match find_prop_key p.props "Ngày Góp" with
                      | some k => some k
                      | none => find_prop_key p.props "Date") with
               | some k => propDateStart p.props k
               | none => none,
             props := p.props }))

/-- The auto-mark branch (lines 1670-1694): find and sort candidates by
date ascending (`key=lambda x: x[2] or ""`), mark `1..min(count, len)`.
When every update failed, the statistics line references the loop variable
`title` that was never bound, raising `NameError` (caught by the outer
handler). -/
def autoMarkFlow (env : Env) (chatId : Int) (kw : String) (count : Nat)
    (s : BotState) : BotState × List Eff :=
  if find_calendar_matches env.calendarPages kw = [] then
    (s, [Eff.tele (intDecimal chatId) ("Không tìm thấy mục nào cho " ++ kw)])
  else
    let ms := stableSortBy (fun a b =>
        decide (a.dateIso.getD "" < b.dateIso.getD ""))
      (find_calendar_matches env.calendarPages kw)
    let r := mark_pages_by_indices env chatId ms
      ((List.range (min count ms.length)).map (fun i : Nat => (i : Int) + 1))
      s.undo
    if r.1.succeeded = [] then
      ({ s with undo := r.2.1 },
       r.2.2 ++ [Eff.tele (intDecimal chatId)
         "❌ Lỗi xử lý: NameError: name title is not defined"])
    else
      ({ s with undo := r.2.1 },
       r.2.2 ++ [Eff.tele (intDecimal chatId) "✅ ngày mới góp 📆"] ++
         [Eff.tele (intDecimal chatId)
           ("💴 Đã góp: " ++
             natDecimal (count_checked_unchecked env.calendarPages kw).1 ++
             " Chưa góp: " ++
             natDecimal (count_checked_unchecked env.calendarPages kw).2)])

/-- The undo branch (lines 1696-1714).  With a non-empty stack the code
evaluates the bare name `undo_switch`; app.py only does `import
switch_app`, so the name is unbound and the `threading.Thread(...)` call
raises `NameError`, caught by the handler's outer `except`, which sends an
error message — nothing is popped, reversed, or mutated.  With an
empty/missing stack it falls back to `undo_last`, which reports that there
is nothing to undo. -/
def undoFlow (env : Env) (chatId : Int) (s : BotState) : BotState × List Eff :=
  match s.undo.lookup (intDecimal chatId) with
  | some (_ :: _) =>
      (s, [Eff.tele (intDecimal chatId)
        "❌ Lỗi xử lý: NameError: name undo_switch is not defined"])
  | _ =>
      let r := undo_last env chatId s
      (r.1, [Eff.tele (intDecimal chatId)
        "♻️ Đang hoàn tác hành động gần nhất ..."] ++ r.2)

/-- The archive branch (lines 1716-1813): list the matches and store an
`archive_select` pending entry expiring at `now + WAIT_CONFIRM`. -/
def archiveFlow (env : Env) (chatId : Int) (kw : String) (s : BotState) :
    BotState × List Eff :=
  if archiveBranchMatches env.calendarPages kw = [] then
    (s, [Eff.tele (intDecimal chatId) ("❌ Không tìm thấy " ++ kw)])
  else
    let entry : PendingEntry :=
      { type := "archive_select", keyword := kw,
        calMatches := archiveBranchMatches env.calendarPages kw,
        expires := env.now + WAIT_CONFIRM, timerMessageId := none }
    ({ s with pending := mapSet s.pending (intDecimal chatId) entry },
     [Eff.tele (intDecimal chatId) ("🗑️ Chọn mục cần xóa cho " ++ kw),
      Eff.tele (intDecimal chatId) "⏳ Đang chờ bạn chọn"])

/-- The đáo branch (lines 1815-1930): several matches store a `dao_choose`
entry; exactly one match previews it (possibly mutating its props with
`ONLY_LAI`) and stores a `dao_confirm` entry; both expire at
`now + WAIT_CONFIRM`.  (`can` from the preview is ignored — even a 🔴
target gets a confirmation prompt.) -/
def daoFlow (env : Env) (chatId : Int) (kw : String) (s : BotState) :
    BotState × List Eff :=
  match find_target_matches env.targetPages kw with
  | [] => (s, [Eff.tele (intDecimal chatId) ("❌ Không tìm thấy " ++ kw)])
  | [t] =>
      let pv := dao_preview_text_from_props env t.title t.props
      let entry : PendingEntry :=
        { type := "dao_confirm", targets := [⟨t.id, t.title, pv.2.2⟩],
          previewText := pv.2.1, title := t.title,
          expires := env.now + WAIT_CONFIRM, timerMessageId := none }
      ({ s with pending := mapSet s.pending (intDecimal chatId) entry },
       [Eff.tele (intDecimal chatId) pv.2.1,
        Eff.tele (intDecimal chatId) "⚠️ Gõ /ok hoặc /cancel.",
        Eff.tele (intDecimal chatId) "⏳ Đang chờ bạn xác nhận"])
  | ts =>
      let entry : PendingEntry :=
        { type := "dao_choose", targetMatches := ts,
          expires := env.now + WAIT_CONFIRM, timerMessageId := none }
      ({ s with pending := mapSet s.pending (intDecimal chatId) entry },
       [Eff.tele (intDecimal chatId) ("💼 Chọn mục đáo cho " ++ kw),
        Eff.tele (intDecimal chatId) "⏳ Đang chờ bạn chọn"])

/-- The interactive mark fall-through (lines 1933-1968): list unchecked
candidates, show statistics; with candidates and a non-zero unchecked
count, store a `mark` pending entry expiring at `now + WAIT_CONFIRM`. -/
def interactiveMarkFlow (env : Env) (chatId : Int) (kw : String)
    (s : BotState) : BotState × List Eff :=
  if find_calendar_matches env.calendarPages kw = [] ∨
      (count_checked_unchecked env.calendarPages kw).2 = 0 then
    (s, [Eff.tele (intDecimal chatId) ("💴 " ++ kw ++ " 💫 Không có ngày chưa góp .")])
  else
    let entry : PendingEntry :=
      { type := "mark", keyword := kw,
        calMatches := find_calendar_matches env.calendarPages kw,
        expires := env.now + WAIT_CONFIRM, timerMessageId := none }
    ({ s with pending := mapSet s.pending (intDecimal chatId) entry },
     [Eff.tele (intDecimal chatId) ("💴 " ++ kw ++ " 📤 ngày chưa góp /cancel."),
      Eff.tele (intDecimal chatId) "⏳ Đang chờ chọn"])

/-- Python `s.endswith(suffix)` (list-based; `String.endsWith` does not
reduce in the kernel). -/
def pyEndsWith (s suffix : String) : Bool :=
  suffix.toList.isSuffixOf s.toList

/-- The command dispatch of `handle_incoming_message` after the pending
checks (lines 1647-1968): switch on/off suffixes spawn `switch_app` flows
(background threads that touch only `undo_stack`), then auto-mark, undo,
archive, đáo, and the interactive-mark fall-through. -/
def handleCommand (env : Env) (chatId : Int) (raw : String) (s : BotState) :
    BotState × List Eff :=
  if pyEndsWith (pyLower (pyStrip raw)) " on" then
    (s, [Eff.spawnSwitch "on" (parse_user_command raw).1])
  else if pyEndsWith (pyLower (pyStrip raw)) " off" then
    (s, [Eff.spawnSwitch "off" (parse_user_command raw).1])
  else if (parse_user_command raw).2.2 = some "mark" ∧
      (parse_user_command raw).2.1 > 0 then
    autoMarkFlow env chatId (parse_user_command raw).1
      (parse_user_command raw).2.1 s
  else if (parse_user_command raw).2.2 = some "undo" then
    undoFlow env chatId s
  else if (parse_user_command raw).2.2 = some "archive" then
    archiveFlow env chatId (parse_user_command raw).1 s
  else if (parse_user_command raw).2.2 = some "dao" then
    daoFlow env chatId (parse_user_command raw).1 s
  else
    interactiveMarkFlow env chatId (parse_user_command raw).1 s

/-- `handle_incoming_message` (app.py lines 1583-1972), with the spawned
selection handlers modelled synchronously.  Order matters and follows the
source: chat restriction; empty text; a pending entry whose type starts
with `dao_` routes to the đáo handler BEFORE the cancel check; otherwise a
pending entry makes cancel tokens delete it and anything else go to the
matching selection handler; with no pending entry, cancel tokens only
stop the (absent) animation; otherwise the command dispatch runs. -/
def handle_incoming_message (env : Env) (chatId : Int) (text : String)
    (s : BotState) : BotState × List Eff :=
  if env.telegramChatId ≠ "" ∧ intDecimal chatId ≠ env.telegramChatId then
    (s, [Eff.tele (intDecimal chatId) "Bot chưa được phép nhận lệnh từ chat này."])
  else if pyStrip text = "" then
    (s, [Eff.tele (intDecimal chatId) "Vui lòng gửi lệnh hoặc từ khoá."])
  else
    match s.pending.lookup (intDecimal chatId) with
    | some pend =>
        if pyStartsWith pend.type "dao_" then
          process_pending_selection_for_dao env chatId (pyStrip text) s
        else if cancelTokens4.contains (pyLower (pyStrip text)) then
          ({ s with pending := mapDel s.pending (intDecimal chatId) },
           [Eff.tele (intDecimal chatId) "Đã hủy thao tác đang chờ."])
        else if pend.type = "dao_choose" ∨ pend.type = "dao_confirm" then
          process_pending_selection_for_dao env chatId (pyStrip text) s
        else
          process_pending_selection env chatId (pyStrip text) s
    | none =>
        if cancelTokens4.contains (pyLower (pyStrip text)) then
          ({ s with pending := stop_waiting_animation chatId s.pending },
           [Eff.tele (intDecimal chatId) "Không có thao tác đang chờ. /cancel ignored."])
        else
          handleCommand env chatId (pyStrip text) s

/-- One pass of the body of `sweep_pending_expirations` (lines 1975-1992):
snapshot the keys, and delete every entry whose `expires` is truthy (i.e.
non-zero) and earlier than `now`.  An entry whose `expires` is 0 — as
`stop_waiting_animation` leaves it — is never deleted, because `0` is
falsy in `item.get("expires") and item.get("expires") < now`. -/
def sweepFold (now : Nat) : List String → List (String × PendingEntry) →
    List (String × PendingEntry)
  | [], pending => pending
  | k :: ks, pending =>
      sweepFold now ks
        (match pending.lookup k with
         | some e =>
             if e.expires ≠ 0 ∧ e.expires < now then mapDel pending k
             else pending
         | none => pending)

/-- One sweep pass over the current `pending_confirm`. -/
def sweepOnce (now : Nat) (pending : List (String × PendingEntry)) :
    List (String × PendingEntry) :=
  sweepFold now (pending.map Prod.fst) pending

/-- One atomic step of the bot: an incoming Telegram message, one pass of
the expiry sweep, or a `stop_waiting_animation` call. -/
inductive Step where
  | incoming (env : Env) (chatId : Int) (text : String)
  | sweepPass (now : Nat)
  | stopAnim (chatId : Int)

/-- Apply one step to the process state, returning the new state and the
emitted effects. -/
def applyStep (st : Step) (s : BotState) : BotState × List Eff :=
  match st with
  | .incoming env c t => handle_incoming_message env c t s
  | .sweepPass now =>
      ({ s with pending := sweepOnce now s.pending },
       (s.pending.filter (fun kv =>
           decide (kv.2.expires ≠ 0 ∧ kv.2.expires < now))).map
         (fun kv => Eff.tele kv.1 "⏳ Thao tác chờ đã hết hạn."))
  | .stopAnim c => ({ s with pending := stop_waiting_animation c s.pending }, [])

/-- C3, evaluation at the failing input.  With a `mark` undo record on the
chat's stack, sending `undo` changes neither `pending_confirm` nor
`undo_stack` and issues no Notion mutation whatsoever: the routing
`if undo_stack.get(str(chat_id)): threading.Thread(target=undo_switch,...)`
evaluates the bare name `undo_switch`, which app.py never binds (it only
does `import switch_app`), so a `NameError` is raised and swallowed by the
handler's outer `except` — the record is not popped and no checkbox is
reset, contradicting the claim that undo reverses and pops the most recent
record. -/
theorem c3_undo_code_bug :
    (handle_incoming_message {} 7 "undo"
        ⟨[], [("7", [UndoRec.markRec ["p1"]])]⟩).1 =
      ⟨[], [("7", [UndoRec.markRec ["p1"]])]⟩ ∧
    ((handle_incoming_message {} 7 "undo"
        ⟨[], [("7", [UndoRec.markRec ["p1"]])]⟩).2.all
      (fun e => !e.isNotionMutation)) = true := by
  exact ⟨rfl, rfl⟩

/-- A concrete `dao_choose` pending entry for the C8 counterexample. -/
def c8entry : PendingEntry :=
  { type := "dao_choose",
    targetMatches := [⟨"t1", "G1-tam", [("Name", NProp.title ["G1-tam"])]⟩],
    expires := 500 }

/-- C8, counterexample.  With a `dao_choose` entry pending, `"/cancel"` is
routed to `process_pending_selection_for_dao`, whose `dao_choose` branch
has no cancel handling: the token parses to no indices, the handler
replies "lựa chọn không hợp lệ", and the pending entry is NOT removed —
against the claim that cancellation removes the entry for every pending
type. -/
theorem c8_cancel_counterexample :
    (handle_incoming_message {} 7 "/cancel"
        ⟨[("7", c8entry)], []⟩).1.pending.lookup "7" = some c8entry := by
  rfl

/-! ### Invariants of the pending map -/

/-- The four pending types the command handlers store. -/
def validPendingTypes : List String :=
  ["mark", "archive_select", "dao_choose", "dao_confirm"]

/-- C1's invariant: `pending_confirm` has at most one entry per chat key,
and every stored entry's type is one of the four handler types. -/
def PendingInv (s : BotState) : Prop :=
  (s.pending.map Prod.fst).Nodup ∧
  ∀ kv ∈ s.pending, kv.2.type ∈ validPendingTypes

theorem mem_mapSet {α : Type} {kv : String × α} {p : List (String × α)}
    {k : String} {v : α} (h : kv ∈ mapSet p k v) : kv = (k, v) ∨ kv ∈ p := by
  induction p with
  | nil => simpa [mapSet] using h
  | cons hd t ih =>
      cases hd with
      | mk k1 v1 =>
          unfold mapSet at h
          by_cases he : k1 = k
          · rw [if_pos he] at h
            rcases List.mem_cons.mp h with h | h
            · exact Or.inl h
            · exact Or.inr (List.mem_cons_of_mem _ h)
          · rw [if_neg he] at h
            rcases List.mem_cons.mp h with h | h
            · exact Or.inr (h ▸ List.mem_cons_self _ _)
            · rcases ih h with h' | h'
              · exact Or.inl h'
              · exact Or.inr (List.mem_cons_of_mem _ h')

theorem mapSet_keys {α : Type} (p : List (String × α)) (k : String) (v : α) :
    (mapSet p k v).map Prod.fst =
      if k ∈ p.map Prod.fst then p.map Prod.fst
      else p.map Prod.fst ++ [k] := by
  induction p with
  | nil => simp [mapSet]
  | cons hd t ih =>
      cases hd with
      | mk k1 v1 =>
          unfold mapSet
          by_cases he : k1 = k
          · subst he
            simp
          · rw [if_neg he]
            simp only [List.map_cons]
            by_cases hm : k ∈ t.map Prod.fst
            · rw [if_pos (by simp [hm])]
              rw [ih, if_pos hm]
            · rw [if_neg (by simp [hm, Ne.symm he])]
              rw [ih, if_neg hm]
              simp

theorem mapSet_keys_nodup {α : Type} (p : List (String × α)) (k : String)
    (v : α) (hn : (p.map Prod.fst).Nodup) :
    ((mapSet p k v).map Prod.fst).Nodup := by
  rw [mapSet_keys]
  by_cases hm : k ∈ p.map Prod.fst
  · rw [if_pos hm]; exact hn
  · rw [if_neg hm]
    rw [List.nodup_append]
    exact ⟨hn, List.nodup_singleton k, by simpa using hm⟩

theorem mapDel_sublist {α : Type} (p : List (String × α)) (k : String) :
    List.Sublist (mapDel p k) p := by
  induction p with
  | nil => simp [mapDel]
  | cons hd t ih =>
      cases hd with
      | mk k1 v1 =>
          unfold mapDel
          by_cases he : k1 = k
          · rw [if_pos he]
            exact List.sublist_cons_self _ _
          · rw [if_neg he]
            exact List.Sublist.cons₂ _ ih

theorem mapDel_keys_nodup {α : Type} (p : List (String × α)) (k : String)
    (hn : (p.map Prod.fst).Nodup) : ((mapDel p k).map Prod.fst).Nodup :=
  List.Nodup.sublist ((mapDel_sublist p k).map Prod.fst) hn

theorem mem_mapDel {α : Type} {kv : String × α} {p : List (String × α)}
    {k : String} (h : kv ∈ mapDel p k) : kv ∈ p :=
  List.Sublist.mem h (mapDel_sublist p k)

theorem lookup_cons {α : Type} (k k1 : String) (v1 : α)
    (t : List (String × α)) :
    ((k1, v1) :: t).lookup k = if k = k1 then some v1 else t.lookup k := by
  by_cases h : k = k1
  · have hb : (k == k1) = true := beq_iff_eq.mpr h
    simp [List.lookup, hb, h]
  · have hb : (k == k1) = false := beq_eq_false_iff_ne.mpr h
    simp [List.lookup, hb, h]

theorem lookup_eq_none_of_not_mem {α : Type} (p : List (String × α))
    (k : String) (h : k ∉ p.map Prod.fst) : p.lookup k = none := by
  induction p with
  | nil => rfl
  | cons hd t ih =>
      cases hd with
      | mk k1 v1 =>
          have h1 : k ≠ k1 := fun e => h (by simp [e])
          have h2 : k ∉ t.map Prod.fst := fun e => h (by simp [e])
          rw [lookup_cons, if_neg h1]
          exact ih h2

theorem lookup_mapSet {α : Type} (p : List (String × α)) (k k' : String)
    (v : α) :
    (mapSet p k' v).lookup k = if k = k' then some v else p.lookup k := by
  induction p with
  | nil =>
      show ([(k', v)] : List (String × α)).lookup k = _
      rw [lookup_cons]
  | cons hd t ih =>
      cases hd with
      | mk k1 v1 =>
          unfold mapSet
          by_cases h1 : k1 = k'
          · rw [if_pos h1, lookup_cons, lookup_cons]
            by_cases h2 : k = k'
            · rw [if_pos h2, if_pos h2]
            · rw [if_neg h2, if_neg h2, if_neg (fun e => h2 (e.trans h1))]
          · rw [if_neg h1, lookup_cons, lookup_cons, ih]
            by_cases h2 : k = k1
            · rw [if_pos h2, if_neg (fun e => h1 (h2.symm.trans e)),
                if_pos h2]
            · rw [if_neg h2, if_neg h2]

theorem lookup_mapDel {α : Type} (p : List (String × α))
    (hn : (p.map Prod.fst).Nodup) (k k' : String) :
    (mapDel p k').lookup k = if k = k' then none else p.lookup k := by
  induction p with
  | nil => simp [mapDel]
  | cons hd t ih =>
      cases hd with
      | mk k1 v1 =>
          rw [List.map_cons, List.nodup_cons] at hn
          unfold mapDel
          by_cases h1 : k1 = k'
          · rw [if_pos h1]
            by_cases h2 : k = k'
            · rw [if_pos h2]
              have hk : k = k1 := h2.trans h1.symm
              rw [hk]
              exact lookup_eq_none_of_not_mem t k1 hn.1
            · rw [if_neg h2, lookup_cons,
                if_neg (fun e => h2 (e.trans h1))]
          · rw [if_neg h1, lookup_cons, lookup_cons]
            by_cases h2 : k = k1
            · rw [if_pos h2, if_pos h2,
                if_neg (fun e => h1 (h2.symm.trans e))]
            · rw [if_neg h2, if_neg h2, ih hn.2]

theorem lookup_of_mem_nodup {α : Type} {p : List (String × α)}
    (hn : (p.map Prod.fst).Nodup) {kv : String × α} (h : kv ∈ p) :
    p.lookup kv.1 = some kv.2 := by
  induction p with
  | nil => cases h
  | cons hd t ih =>
      cases hd with
      | mk k1 v1 =>
          rw [List.map_cons, List.nodup_cons] at hn
          rcases List.mem_cons.mp h with h | h
          · rw [h, lookup_cons, if_pos rfl]
          · have hk : kv.1 ≠ k1 := fun e =>
              hn.1 (by rw [← e]; exact List.mem_map.mpr ⟨kv, h, rfl⟩)
            rw [lookup_cons, if_neg hk]
            exact ih hn.2 h

theorem mem_of_lookup_eq_some {α : Type} {p : List (String × α)}
    {k : String} {v : α} (h : p.lookup k = some v) : (k, v) ∈ p := by
  induction p with
  | nil => cases h
  | cons hd t ih =>
      cases hd with
      | mk k1 v1 =>
          rw [lookup_cons] at h
          by_cases hk : k = k1
          · rw [if_pos hk] at h
            exact List.mem_cons.mpr (Or.inl (by rw [hk, Option.some_inj.mp h]))
          · rw [if_neg hk] at h
            exact List.mem_cons_of_mem _ (ih h)

theorem lookup_isSome_of_mem {α : Type} {p : List (String × α)}
    {kv : String × α} (h : kv ∈ p) : (p.lookup kv.1).isSome := by
  induction p with
  | nil => cases h
  | cons hd t ih =>
      cases hd with
      | mk k1 v1 =>
          rcases List.mem_cons.mp h with h | h
          · rw [h, lookup_cons, if_pos rfl]; rfl
          · rw [lookup_cons]
            by_cases hk : kv.1 = k1
            · rw [if_pos hk]; rfl
            · rw [if_neg hk]; exact ih h

theorem lookup_none_forall {α : Type} {p : List (String × α)} {k : String}
    (h : p.lookup k = none) : ∀ kv ∈ p, kv.1 ≠ k := by
  intro kv hkv e
  have hs := lookup_isSome_of_mem hkv
  rw [e, h] at hs
  cases hs

theorem mapDel_eq_filter {α : Type} (p : List (String × α)) (k : String)
    (hn : (p.map Prod.fst).Nodup) :
    mapDel p k = p.filter (fun kv => !(kv.1 == k)) := by
  induction p with
  | nil => rfl
  | cons hd t ih =>
      cases hd with
      | mk k1 v1 =>
          rw [List.map_cons, List.nodup_cons] at hn
          unfold mapDel
          by_cases he : k1 = k
          · rw [if_pos he]
            rw [List.filter_cons_of_neg (by simp [he])]
            symm
            apply List.filter_eq_self.mpr
            intro kv hkv
            have : kv.1 ≠ k := fun e =>
              hn.1 (by rw [he, ← e]; exact List.mem_map.mpr ⟨kv, hkv, rfl⟩)
            simp [this]
          · rw [if_neg he]
            rw [List.filter_cons_of_pos (by simp [he])]
            rw [ih hn.2]

/-- The body of one key of the sweep loop. -/
def sweepStep (now : Nat) (pending : List (String × PendingEntry))
    (k : String) : List (String × PendingEntry) :=
  match pending.lookup k with
  | some e =>
      if e.expires ≠ 0 ∧ e.expires < now then mapDel pending k else pending
  | none => pending

theorem sweepFold_eq_steps (now : Nat) (ks : List String)
    (pending : List (String × PendingEntry)) :
    sweepFold now ks pending =
      ks.foldl (sweepStep now) pending := by
  induction ks generalizing pending with
  | nil => rfl
  | cons k ks ih =>
      rw [List.foldl_cons, ← ih]
      rfl

theorem sweepStep_sublist (now : Nat) (pending : List (String × PendingEntry))
    (k : String) : List.Sublist (sweepStep now pending k) pending := by
  unfold sweepStep
  cases h : pending.lookup k with
  | none => exact List.Sublist.refl _
  | some e =>
      show List.Sublist
        (if e.expires ≠ 0 ∧ e.expires < now then mapDel pending k
         else pending) pending
      by_cases hc : e.expires ≠ 0 ∧ e.expires < now
      · rw [if_pos hc]
        exact mapDel_sublist pending k
      · rw [if_neg hc]

theorem sweepFold_sublist (now : Nat) (ks : List String)
    (pending : List (String × PendingEntry)) :
    List.Sublist (sweepFold now ks pending) pending := by
  induction ks generalizing pending with
  | nil => exact List.Sublist.refl _
  | cons k ks ih =>
      have : sweepFold now (k :: ks) pending =
          sweepFold now ks (sweepStep now pending k) := rfl
      rw [this]
      exact (ih _).trans (sweepStep_sublist now pending k)

theorem sweepStep_eq_filter (now : Nat) (pending : List (String × PendingEntry))
    (k : String) (hn : (pending.map Prod.fst).Nodup) :
    sweepStep now pending k =
      pending.filter (fun kv =>
        !(kv.1 == k && decide (kv.2.expires ≠ 0 ∧ kv.2.expires < now))) := by
  unfold sweepStep
  cases h : pending.lookup k with
  | none =>
      symm
      apply List.filter_eq_self.mpr
      intro kv hkv
      have := lookup_none_forall h kv hkv
      simp [this]
  | some e =>
      show (if e.expires ≠ 0 ∧ e.expires < now then mapDel pending k
        else pending) = _
      by_cases hc : e.expires ≠ 0 ∧ e.expires < now
      · rw [if_pos hc, mapDel_eq_filter pending k hn]
        apply List.filter_congr
        intro kv hkv
        by_cases hk : kv.1 = k
        · have : kv.2 = e := by
            have h1 := lookup_of_mem_nodup hn hkv
            rw [hk, h] at h1
            exact Option.some_inj.mp h1.symm
          simp [hk, this, hc]
        · simp [hk]
      · rw [if_neg hc]
        symm
        apply List.filter_eq_self.mpr
        intro kv hkv
        by_cases hk : kv.1 = k
        · have : kv.2 = e := by
            have h1 := lookup_of_mem_nodup hn hkv
            rw [hk, h] at h1
            exact Option.some_inj.mp h1.symm
          simp [hk, this, hc]
        · simp [hk]

theorem sweepFold_eq_filter (now : Nat) (ks : List String)
    (pending : List (String × PendingEntry))
    (hn : (pending.map Prod.fst).Nodup) :
    sweepFold now ks pending =
      pending.filter (fun kv =>
        !(decide (kv.1 ∈ ks) &&
          decide (kv.2.expires ≠ 0 ∧ kv.2.expires < now))) := by
  induction ks generalizing pending with
  | nil =>
      symm
      apply List.filter_eq_self.mpr
      intro kv _
      simp
  | cons k ks ih =>
      have h0 : sweepFold now (k :: ks) pending =
          sweepFold now ks (sweepStep now pending k) := rfl
      have hn' : ((sweepStep now pending k).map Prod.fst).Nodup :=
        List.Nodup.sublist ((sweepStep_sublist now pending k).map Prod.fst) hn
      rw [h0, ih _ hn', sweepStep_eq_filter now pending k hn,
        List.filter_filter]
      apply List.filter_congr
      intro kv _
      by_cases h1 : kv.1 = k
      · by_cases h2 : kv.2.expires ≠ 0 ∧ kv.2.expires < now
        · simp [h1, h2]
        · simp [h1, h2]
      · by_cases h3 : kv.1 ∈ ks
        · by_cases h2 : kv.2.expires ≠ 0 ∧ kv.2.expires < now
          · simp [h1, h2, h3]
          · simp [h1, h2, h3]
        · simp [h1, h3]

theorem sweepOnce_eq_filter (now : Nat)
    (pending : List (String × PendingEntry))
    (hn : (pending.map Prod.fst).Nodup) :
    sweepOnce now pending =
      pending.filter (fun kv =>
        !(decide (kv.2.expires ≠ 0 ∧ kv.2.expires < now))) := by
  unfold sweepOnce
  rw [sweepFold_eq_filter now _ pending hn]
  apply List.filter_congr
  intro kv hkv
  have : kv.1 ∈ pending.map Prod.fst := List.mem_map.mpr ⟨kv, hkv, rfl⟩
  simp [this]

/-! ### Shape of the pending map after each handler -/

theorem fst_pending_ite (c : Prop) [Decidable c] (a b : BotState × List Eff)
    (X : List (String × PendingEntry)) (ha : a.1.pending = X)
    (hb : b.1.pending = X) : (if c then a else b).1.pending = X := by
  split_ifs <;> assumption

theorem pps_pending_shape (env : Env) (chatId : Int) (raw : String)
    (s : BotState) :
    (process_pending_selection env chatId raw s).1.pending = s.pending ∨
    (process_pending_selection env chatId raw s).1.pending =
      mapDel s.pending (intDecimal chatId) := by
  unfold process_pending_selection
  split
  · exact Or.inl rfl
  · split_ifs
    · exact Or.inr rfl
    · exact Or.inr rfl
    · exact Or.inl rfl
    · exact Or.inr (fst_pending_ite _ _ _ _ rfl rfl)
    · exact Or.inr rfl
    · exact Or.inr rfl

theorem ppsd_pending_shape (env : Env) (chatId : Int) (raw : String)
    (s : BotState) :
    (process_pending_selection_for_dao env chatId raw s).1.pending =
      s.pending ∨
    (process_pending_selection_for_dao env chatId raw s).1.pending =
      mapDel s.pending (intDecimal chatId) ∨
    ∃ e : PendingEntry, e.type ∈ validPendingTypes ∧
      e.expires = env.now + WAIT_CONFIRM ∧
      (process_pending_selection_for_dao env chatId raw s).1.pending =
        mapSet s.pending (intDecimal chatId) e := by
  unfold process_pending_selection_for_dao
  split
  · exact Or.inl rfl
  · split_ifs
    · exact Or.inl rfl
    · refine Or.inr (Or.inr ⟨_, ?_, ?_, rfl⟩)
      · show ("dao_confirm" : String) ∈ validPendingTypes
        decide
      · rfl
    · exact Or.inl rfl
    · exact Or.inr (Or.inl rfl)
    · exact Or.inl rfl
    · exact Or.inr (Or.inl rfl)
    · exact Or.inr (Or.inl rfl)
    · exact Or.inl rfl

theorem autoMarkFlow_pending (env : Env) (chatId : Int) (kw : String)
    (count : Nat) (s : BotState) :
    (autoMarkFlow env chatId kw count s).1.pending = s.pending := by
  unfold autoMarkFlow
  split_ifs
  · rfl
  · exact fst_pending_ite _ _ _ _ rfl rfl

theorem undo_last_pending (env : Env) (chatId : Int) (s : BotState) :
    (undo_last env chatId s).1.pending = s.pending := by
  unfold undo_last
  split
  · rfl
  · split_ifs
    · rfl
    · split
      · rfl
      · split <;> (try rfl) <;> split_ifs <;> rfl

theorem undoFlow_pending (env : Env) (chatId : Int) (s : BotState) :
    (undoFlow env chatId s).1.pending = s.pending := by
  unfold undoFlow
  split
  · rfl
  · exact undo_last_pending env chatId s

theorem handleCommand_pending_shape (env : Env) (chatId : Int) (raw : String)
    (s : BotState) :
    (handleCommand env chatId raw s).1.pending = s.pending ∨
    ∃ e : PendingEntry, e.type ∈ validPendingTypes ∧
      e.expires = env.now + WAIT_CONFIRM ∧
      (handleCommand env chatId raw s).1.pending =
        mapSet s.pending (intDecimal chatId) e := by
  unfold handleCommand
  split_ifs
  · exact Or.inl rfl
  · exact Or.inl rfl
  · exact Or.inl (autoMarkFlow_pending env chatId _ _ s)
  · exact Or.inl (undoFlow_pending env chatId s)
  · unfold archiveFlow
    split_ifs
    · exact Or.inl rfl
    · refine Or.inr ⟨_, ?_, ?_, rfl⟩
      · show ("archive_select" : String) ∈ validPendingTypes
        decide
      · rfl
  · unfold daoFlow
    split
    · exact Or.inl rfl
    · refine Or.inr ⟨_, ?_, ?_, rfl⟩
      · show ("dao_confirm" : String) ∈ validPendingTypes
        decide
      · rfl
    · refine Or.inr ⟨_, ?_, ?_, rfl⟩
      · show ("dao_choose" : String) ∈ validPendingTypes
        decide
      · rfl
  · unfold interactiveMarkFlow
    split_ifs
    · exact Or.inl rfl
    · refine Or.inr ⟨_, ?_, ?_, rfl⟩
      · show ("mark" : String) ∈ validPendingTypes
        decide
      · rfl

theorem handle_pending_shape (env : Env) (chatId : Int) (text : String)
    (s : BotState) :
    (handle_incoming_message env chatId text s).1.pending = s.pending ∨
    (handle_incoming_message env chatId text s).1.pending =
      mapDel s.pending (intDecimal chatId) ∨
    ∃ e : PendingEntry, e.type ∈ validPendingTypes ∧
      e.expires = env.now + WAIT_CONFIRM ∧
      (handle_incoming_message env chatId text s).1.pending =
        mapSet s.pending (intDecimal chatId) e := by
  unfold handle_incoming_message
  split_ifs
  · exact Or.inl rfl
  · exact Or.inl rfl
  · split
    · split_ifs
      · exact ppsd_pending_shape env chatId (pyStrip text) s
      · exact Or.inr (Or.inl rfl)
    · rename_i hl
      refine Or.inl ?_
      show ({ s with
        pending := stop_waiting_animation chatId s.pending }).pending = _
      unfold stop_waiting_animation
      rw [hl]
  · split
    · split_ifs
      · exact ppsd_pending_shape env chatId (pyStrip text) s
      · exact ppsd_pending_shape env chatId (pyStrip text) s
      · rcases pps_pending_shape env chatId (pyStrip text) s with h | h
        · exact Or.inl h
        · exact Or.inr (Or.inl h)
    · rcases handleCommand_pending_shape env chatId (pyStrip text) s with
        h | ⟨e, h1, h2, h3⟩
      · exact Or.inl h
      · exact Or.inr (Or.inr ⟨e, h1, h2, h3⟩)

/-- C1: the pending-confirmation dictionary invariant.  Every step of the
bot — an incoming message, a sweep pass, a `stop_waiting_animation` call —
preserves it: keys stay duplicate-free (one outstanding operation per
chat: a handler that starts a new interactive operation replaces the
chat's entry via the keyed store, never adding a second one), and every
stored entry's `type` is one of `"mark"`, `"archive_select"`,
`"dao_choose"`, `"dao_confirm"`. -/
theorem c1_pending_state_machine (st : Step) (s : BotState)
    (h : PendingInv s) : PendingInv (applyStep st s).1 := by
  obtain ⟨hn, hty⟩ := h
  cases st with
  | incoming env c t =>
      rcases handle_pending_shape env c t s with hp | hp | ⟨e, h1, _, hp⟩
      · refine ⟨?_, ?_⟩
        · show (((handle_incoming_message env c t s).1.pending).map
            Prod.fst).Nodup
          rw [hp]; exact hn
        · intro kv hkv
          have hkv' : kv ∈ (handle_incoming_message env c t s).1.pending := hkv
          rw [hp] at hkv'
          exact hty kv hkv'
      · refine ⟨?_, ?_⟩
        · show (((handle_incoming_message env c t s).1.pending).map
            Prod.fst).Nodup
          rw [hp]; exact mapDel_keys_nodup _ _ hn
        · intro kv hkv
          have hkv' : kv ∈ (handle_incoming_message env c t s).1.pending := hkv
          rw [hp] at hkv'
          exact hty kv (mem_mapDel hkv')
      · refine ⟨?_, ?_⟩
        · show (((handle_incoming_message env c t s).1.pending).map
            Prod.fst).Nodup
          rw [hp]; exact mapSet_keys_nodup _ _ _ hn
        · intro kv hkv
          have hkv' : kv ∈ (handle_incoming_message env c t s).1.pending := hkv
          rw [hp] at hkv'
          rcases mem_mapSet hkv' with h2 | h2
          · rw [h2]; exact h1
          · exact hty kv h2
  | sweepPass now =>
      refine ⟨?_, ?_⟩
      · exact List.Nodup.sublist
          ((sweepFold_sublist now _ s.pending).map Prod.fst) hn
      · intro kv hkv
        exact hty kv (List.Sublist.mem hkv (sweepFold_sublist now _ s.pending))
  | stopAnim c =>
      show PendingInv
        ({ s with pending := stop_waiting_animation c s.pending })
      unfold stop_waiting_animation
      split
      · rename_i e hl
        refine ⟨?_, ?_⟩
        · exact mapSet_keys_nodup _ _ _ hn
        · intro kv hkv
          rcases mem_mapSet hkv with h2 | h2
          · rw [h2]
            exact hty (intDecimal c, e) (mem_of_lookup_eq_some hl)
          · exact hty kv h2
      · exact ⟨hn, hty⟩

/-- Concrete state for the C1 witness: one pending `mark` entry. -/
def c1state : BotState :=
  { pending := [("7", { type := "mark", expires := 500 })], undo := [] }

theorem c1_pending_state_machine_witness :
    PendingInv (applyStep (Step.sweepPass 1000) c1state).1 :=
  c1_pending_state_machine (Step.sweepPass 1000) c1state
    (by unfold PendingInv; decide)

/-- C2, counterexample.  `stop_waiting_animation` forces the entry's
`expires` to `0`; a later sweep at any time keeps it, because `0` is falsy
in Python's `item.get("expires") and item.get("expires") < now`, so the
claim that such an entry cannot survive a subsequent sweep iteration is
false: it survives every sweep. -/
theorem c2_sweep_counterexample :
    ((applyStep (Step.sweepPass 1000)
        (applyStep (Step.stopAnim 7)
          ⟨[("7", { type := "mark", expires := 500 })], []⟩).1).1.pending.lookup
      "7") = some { type := "mark", expires := 0 } := by
  rfl

/-- C2, amended.  Every entry the message handler stores (any key whose
value changed) carries `expires = now + WAIT_CONFIRM`; one sweep pass
deletes exactly the entries whose `expires` is non-zero AND earlier than
the current time — so an entry whose `expires` was forced to `0` by
`stop_waiting_animation` is never swept, surviving every iteration. -/
theorem c2_sweep_amended (env : Env) (chatId : Int) (text : String)
    (s : BotState) (hs : (s.pending.map Prod.fst).Nodup)
    (now : Nat) (p : List (String × PendingEntry))
    (hp : (p.map Prod.fst).Nodup) :
    (∀ k e, (handle_incoming_message env chatId text s).1.pending.lookup k =
        some e →
      s.pending.lookup k = some e ∨ e.expires = env.now + WAIT_CONFIRM) ∧
    sweepOnce now p = p.filter
      (fun kv => !(decide (kv.2.expires ≠ 0 ∧ kv.2.expires < now))) ∧
    ∀ kv ∈ p, kv.2.expires = 0 → kv ∈ sweepOnce now p := by
  refine ⟨?_, sweepOnce_eq_filter now p hp, ?_⟩
  · intro k e hk
    rcases handle_pending_shape env chatId text s with h | h | ⟨e2, _, h2, h3⟩
    · rw [h] at hk
      exact Or.inl hk
    · rw [h, lookup_mapDel s.pending hs] at hk
      by_cases hkc : k = intDecimal chatId
      · rw [if_pos hkc] at hk
        cases hk
      · rw [if_neg hkc] at hk
        exact Or.inl hk
    · rw [h3, lookup_mapSet] at hk
      by_cases hkc : k = intDecimal chatId
      · rw [if_pos hkc] at hk
        have he := Option.some_inj.mp hk
        rw [← he]
        exact Or.inr h2
      · rw [if_neg hkc] at hk
        exact Or.inl hk
  · intro kv hkv hz
    rw [sweepOnce_eq_filter now p hp]
    refine List.mem_filter.mpr ⟨hkv, ?_⟩
    simp [hz]

/-- Concrete pending map for the C2 witness: one expired entry, one whose
expiry was zeroed. -/
def c2p : List (String × PendingEntry) :=
  [("7", { type := "mark", expires := 500 }), ("8", { type := "mark" })]

theorem c2_sweep_amended_witness :
    (∀ k e, (handle_incoming_message {} 7 "hello"
        ⟨[], []⟩).1.pending.lookup k = some e →
      (⟨[], []⟩ : BotState).pending.lookup k = some e ∨
        e.expires = ({} : Env).now + WAIT_CONFIRM) ∧
    sweepOnce 1000 c2p = c2p.filter
      (fun kv => !(decide (kv.2.expires ≠ 0 ∧ kv.2.expires < 1000))) ∧
    ∀ kv ∈ c2p, kv.2.expires = 0 → kv ∈ sweepOnce 1000 c2p :=
  c2_sweep_amended {} 7 "hello" ⟨[], []⟩ (by decide) 1000 c2p (by decide)

/-! ### Cancellation (C8) -/

theorem dropWhile_head_false (p : Char → Bool) (l : List Char) (c : Char)
    (h : (l.dropWhile p).head? = some c) : p c = false := by
  induction l with
  | nil => cases h
  | cons a t ih =>
      rw [List.dropWhile_cons] at h
      by_cases hp : p a
      · rw [if_pos hp] at h
        exact ih h
      · rw [if_neg hp] at h
        rw [List.head?_cons] at h
        rw [← Option.some_inj.mp h]
        exact Bool.eq_false_iff.mpr hp

theorem dropWhile_eq_self_of_head (p : Char → Bool) (l : List Char)
    (h : ∀ c, l.head? = some c → p c = false) : l.dropWhile p = l := by
  cases l with
  | nil => rfl
  | cons a t =>
      rw [List.dropWhile_cons, h a rfl]
      simp

theorem dropWhile_idem (p : Char → Bool) (l : List Char) :
    (l.dropWhile p).dropWhile p = l.dropWhile p :=
  dropWhile_eq_self_of_head p _ (fun c h => dropWhile_head_false p l c h)

theorem pyStripList_idem (cs : List Char) :
    pyStripList (pyStripList cs) = pyStripList cs := by
  unfold pyStripList
  have h1 : List.IsSuffix
      ((cs.dropWhile pyWhitespace).reverse.dropWhile pyWhitespace)
      ((cs.dropWhile pyWhitespace).reverse) := List.dropWhile_suffix _
  have hpre : List.IsPrefix
      (((cs.dropWhile pyWhitespace).reverse.dropWhile pyWhitespace).reverse)
      (cs.dropWhile pyWhitespace) :=
    List.reverse_suffix.mp (by rw [List.reverse_reverse]; exact h1)
  have hhead : ∀ c,
      ((((cs.dropWhile pyWhitespace).reverse.dropWhile
        pyWhitespace).reverse)).head? = some c → pyWhitespace c = false := by
    intro c hc
    rcases hpre with ⟨r, hr⟩
    have hh : (cs.dropWhile pyWhitespace).head? = some c := by
      rw [← hr]
      cases hb : (((cs.dropWhile pyWhitespace).reverse.dropWhile
          pyWhitespace).reverse) with
      | nil => rw [hb] at hc; cases hc
      | cons x xs =>
          rw [hb] at hc
          rw [List.head?_cons] at hc
          rw [List.cons_append, List.head?_cons]
          exact hc
    exact dropWhile_head_false pyWhitespace cs c hh
  have h2 : (((cs.dropWhile pyWhitespace).reverse.dropWhile
      pyWhitespace).reverse).dropWhile pyWhitespace =
      ((cs.dropWhile pyWhitespace).reverse.dropWhile pyWhitespace).reverse :=
    dropWhile_eq_self_of_head _ _ hhead
  rw [h2, List.reverse_reverse, dropWhile_idem]

theorem pyStrip_idem (s : String) : pyStrip (pyStrip s) = pyStrip s := by
  unfold pyStrip
  rw [List.toList_asString, pyStripList_idem]

/-- Every cancel token parses to no selection indices (so the `dao_choose`
branch treats cancellation as an invalid selection). -/
theorem parse_cancel_empty (sel : String) (n : Nat)
    (h : pyLower (pyStrip sel) ∈ cancelTokens4) :
    parse_user_selection_text sel n = [] := by
  have h4 : pyLower (pyStrip sel) = "/cancel" ∨
      pyLower (pyStrip sel) = "cancel" ∨ pyLower (pyStrip sel) = "hủy" ∨
      pyLower (pyStrip sel) = "huy" := by
    simpa [cancelTokens4] using h
  unfold parse_user_selection_text
  rcases h4 with h4 | h4 | h4 | h4
  all_goals
    rw [h4, if_neg (by decide)]
    rfl

theorem handle_routes (env : Env) (chatId : Int) (text : String)
    (s : BotState) (pend : PendingEntry)
    (hchat : env.telegramChatId = "") (hne : ¬(pyStrip text = ""))
    (hl : s.pending.lookup (intDecimal chatId) = some pend) :
    handle_incoming_message env chatId text s =
      if pyStartsWith pend.type "dao_" then
        process_pending_selection_for_dao env chatId (pyStrip text) s
      else if cancelTokens4.contains (pyLower (pyStrip text)) then
        ({ s with pending := mapDel s.pending (intDecimal chatId) },
         [Eff.tele (intDecimal chatId) "Đã hủy thao tác đang chờ."])
      else if pend.type = "dao_choose" ∨ pend.type = "dao_confirm" then
        process_pending_selection_for_dao env chatId (pyStrip text) s
      else process_pending_selection env chatId (pyStrip text) s := by
  unfold handle_incoming_message
  rw [if_neg (fun h => h.1 hchat), if_neg hne, hl]

theorem ppsd_choose_invalid (env : Env) (chatId : Int) (raw : String)
    (s : BotState) (pend : PendingEntry)
    (hl : s.pending.lookup (intDecimal chatId) = some pend)
    (ht : pend.type = "dao_choose")
    (hp : parse_user_selection_text raw pend.targetMatches.length = []) :
    process_pending_selection_for_dao env chatId raw s =
      (s, [Eff.tele (intDecimal chatId)
        "⚠️ Lựa chọn không hợp lệ. Ví dụ 1 hoặc 1-2"]) := by
  unfold process_pending_selection_for_dao
  split
  · rename_i heq
    rw [hl] at heq
    cases heq
  · rename_i data heq
    rw [hl] at heq
    have hd := Option.some_inj.mp heq
    subst hd
    rw [if_pos ht, if_pos hp]

theorem ppsd_confirm_cancel (env : Env) (chatId : Int) (raw : String)
    (s : BotState) (pend : PendingEntry)
    (hl : s.pending.lookup (intDecimal chatId) = some pend)
    (ht : pend.type = "dao_confirm")
    (hne : ¬(pyLower (pyStrip raw) = ""))
    (hc : cancelTokens5.contains (pyLower (pyStrip raw)) = true) :
    process_pending_selection_for_dao env chatId raw s =
      ({ s with pending := mapDel s.pending (intDecimal chatId) },
       [Eff.tele (intDecimal chatId) "❌ Đã hủy thao tác đáo."]) := by
  unfold process_pending_selection_for_dao
  split
  · rename_i heq
    rw [hl] at heq
    cases heq
  · rename_i data heq
    rw [hl] at heq
    have hd := Option.some_inj.mp heq
    subst hd
    rw [if_neg (by rw [ht]; decide), if_pos ht, if_neg hne, if_pos hc]

theorem ppsd_other_type (env : Env) (chatId : Int) (raw : String)
    (s : BotState) (pend : PendingEntry)
    (hl : s.pending.lookup (intDecimal chatId) = some pend)
    (h1 : ¬(pend.type = "dao_choose")) (h2 : ¬(pend.type = "dao_confirm")) :
    process_pending_selection_for_dao env chatId raw s = (s, []) := by
  unfold process_pending_selection_for_dao
  split
  · rename_i heq
    rw [hl] at heq
    cases heq
  · rename_i data heq
    rw [hl] at heq
    have hd := Option.some_inj.mp heq
    subst hd
    rw [if_neg h1, if_neg h2]

/-- C8, amended.  With a pending entry and a cancel-token message
(`/cancel`, `cancel`, `hủy`, `huy` after strip+lower): for a `mark`,
`archive_select` or `dao_confirm` entry the chat's `pending_confirm` entry
is removed; for a `dao_choose` entry the token is routed to the đáo
selection handler, parses as an invalid selection, and the entry is NOT
removed (it stays until expiry or a valid reply); in every case the
handler performs no Notion mutation — no page is created, updated,
archived or unarchived. -/
theorem c8_cancel_amended (env : Env) (chatId : Int) (text : String)
    (s : BotState) (pend : PendingEntry)
    (hchat : env.telegramChatId = "")
    (hl : s.pending.lookup (intDecimal chatId) = some pend)
    (hc : pyLower (pyStrip text) ∈ cancelTokens4) :
    ((pend.type = "mark" ∨ pend.type = "archive_select" ∨
        pend.type = "dao_confirm") →
      (handle_incoming_message env chatId text s).1.pending =
        mapDel s.pending (intDecimal chatId)) ∧
    (pend.type = "dao_choose" →
      (handle_incoming_message env chatId text s).1.pending = s.pending) ∧
    ((handle_incoming_message env chatId text s).2.all
      (fun e => !e.isNotionMutation)) = true := by
  have h4 : pyLower (pyStrip text) = "/cancel" ∨
      pyLower (pyStrip text) = "cancel" ∨ pyLower (pyStrip text) = "hủy" ∨
      pyLower (pyStrip text) = "huy" := by
    simpa [cancelTokens4] using hc
  have hne : ¬(pyStrip text = "") := by
    intro e
    rw [e] at hc
    revert hc
    decide
  have hcanc : cancelTokens4.contains (pyLower (pyStrip text)) = true := by
    rcases h4 with h | h | h | h <;> rw [h] <;> decide
  have hne2 : ¬(pyLower (pyStrip text) = "") := by
    rcases h4 with h | h | h | h <;> rw [h] <;> decide
  have hne5 : ¬(pyLower (pyStrip (pyStrip text)) = "") := by
    rw [pyStrip_idem]
    exact hne2
  have hcanc5 : cancelTokens5.contains
      (pyLower (pyStrip (pyStrip text))) = true := by
    rw [pyStrip_idem]
    rcases h4 with h | h | h | h <;> rw [h] <;> decide
  have hparse : ∀ n : Nat, parse_user_selection_text (pyStrip text) n = [] :=
    fun n => parse_cancel_empty (pyStrip text) n
      (by rw [pyStrip_idem]; exact hc)
  rw [handle_routes env chatId text s pend hchat hne hl]
  refine ⟨?_, ?_, ?_⟩
  · intro htype
    rcases htype with h | h | h
    · rw [h]
      rw [if_neg (by decide), if_pos hcanc]
    · rw [h]
      rw [if_neg (by decide), if_pos hcanc]
    · rw [h]
      rw [if_pos (by decide)]
      rw [ppsd_confirm_cancel env chatId (pyStrip text) s pend hl h hne5
        hcanc5]
  · intro htype
    rw [htype, if_pos (by decide)]
    rw [ppsd_choose_invalid env chatId (pyStrip text) s pend hl htype
      (hparse pend.targetMatches.length)]
  · by_cases hdao : pyStartsWith pend.type "dao_"
    · rw [if_pos hdao]
      by_cases ht1 : pend.type = "dao_choose"
      · rw [ppsd_choose_invalid env chatId (pyStrip text) s pend hl ht1
          (hparse pend.targetMatches.length)]
        rfl
      · by_cases ht2 : pend.type = "dao_confirm"
        · rw [ppsd_confirm_cancel env chatId (pyStrip text) s pend hl ht2
            hne5 hcanc5]
          rfl
        · rw [ppsd_other_type env chatId (pyStrip text) s pend hl ht1 ht2]
          rfl
    · rw [if_neg hdao, if_pos hcanc]
      rfl

theorem c8_cancel_amended_witness :
    ((c8entry.type = "mark" ∨ c8entry.type = "archive_select" ∨
        c8entry.type = "dao_confirm") →
      (handle_incoming_message {} 7 "/cancel"
          ⟨[("7", c8entry)], []⟩).1.pending =
        mapDel (⟨[("7", c8entry)], []⟩ : BotState).pending (intDecimal 7)) ∧
    (c8entry.type = "dao_choose" →
      (handle_incoming_message {} 7 "/cancel"
          ⟨[("7", c8entry)], []⟩).1.pending =
        (⟨[("7", c8entry)], []⟩ : BotState).pending) ∧
    ((handle_incoming_message {} 7 "/cancel"
        ⟨[("7", c8entry)], []⟩).2.all
      (fun e => !e.isNotionMutation)) = true :=
  c8_cancel_amended {} 7 "/cancel" ⟨[("7", c8entry)], []⟩ c8entry
    (by decide) (by decide) (by decide)
